import Mathlib

/-!
# ArpRedisCollector: network enumeration and the multi-interface collector

A shallow embedding of `src/net/net.go` and `src/collector/collector.go`.

Conventions of the embedding:

* a Go `string` is a Lean `String`; byte-level scanning works on its list of
  characters (tab, digits, letters and the underscore are single bytes, so
  the two views agree on every property used here);
* a Go `[]byte` (`net.IP`, `net.IPMask`, `net.HardwareAddr`) is a `List Nat`
  of byte values; the nil slice is the empty list;
* a Go `error` is an `Option Error`, `none` being `nil`;
* a run-time fault (index out of range, close of a closed channel, send on a
  closed channel) is an explicit outcome, never a default value;
* a channel has its capacity; a send that finds the buffer full while nobody
  receives leaves the sender suspended in that send, which is an explicit
  outcome too;
* calls into the operating system and into the external ARP library are
  inputs of the functions that make them.
-/

namespace ArpRedisCollector

/-- Go `error` values carry a message. -/
abbrev Error := String

/-- Go `net.IP`: a byte slice of length 4 or 16 (nil is the empty list). -/
abbrev IP := List Nat

/-! ## The Go library functions used by `net.go` -/

namespace strconv

/-- The two kinds of `*NumError` that `ParseUint` and `ParseInt` report. -/
inductive NumError where
  | errSyntax
  | errRange
  deriving DecidableEq, Repr

/-- Go `lower(c)`, that is `c | ('x' - 'X')`, on a byte value. -/
def lower (c : Nat) : Nat := c ||| 0x20

/-- Go `underscoreOK` loop: `saw` is the last kind of character seen
(`'0'` digit, `'_'` underscore, `'!'` other, `'^'` start). -/
def underscoreLoop (hex : Bool) : List Nat → Char → Bool
  | [], saw => saw != '_'
  | c :: cs, saw =>
    if (48 ≤ c ∧ c ≤ 57) ∨ (hex = true ∧ 97 ≤ lower c ∧ lower c ≤ 102) then
      underscoreLoop hex cs '0'
    else if c = 95 then
      if saw != '0' then false else underscoreLoop hex cs '_'
    else if saw == '_' then false
    else underscoreLoop hex cs '!'

/-- Go `underscoreOK(s)`: underscores must separate digits (or follow the base prefix). -/
def underscoreOK (s : List Nat) : Bool :=
  let s := match s with
    | c :: cs => if c = 45 ∨ c = 43 then cs else c :: cs
    | [] => []
  match s with
  | 48 :: p :: rest =>
    if lower p = 98 ∨ lower p = 111 ∨ lower p = 120 then
      underscoreLoop (lower p = 120) rest '0'
    else underscoreLoop false s '^'
  | _ => underscoreLoop false s '^'

/-- The digit loop of Go `ParseUint` for 64-bit results: `n` is the
accumulator, `us` records whether an underscore was skipped. The result is
the value and error returned, or `none` with the final accumulator when the
loop runs to the end of the input. -/
def digitLoop (base : Nat) (base0 : Bool) (cutoff maxVal : Nat) :
    List Nat → Nat → Bool → (Nat × Option NumError) ⊕ (Nat × Bool)
  | [], n, us => .inr (n, us)
  | c :: cs, n, us =>
    if c = 95 ∧ base0 = true then digitLoop base base0 cutoff maxVal cs n true
    else
      let d? : Option Nat :=
        if 48 ≤ c ∧ c ≤ 57 then some (c - 48)
        else if 97 ≤ lower c ∧ lower c ≤ 122 then some (lower c - 97 + 10)
        else none
      match d? with
      | none => .inl (0, some .errSyntax)
      | some d =>
        if d ≥ base then .inl (0, some .errSyntax)
        else if n ≥ cutoff then .inl (maxVal, some .errRange)
        else
          let n' := (n * base) % 2 ^ 64
          let n1 := (n' + d) % 2 ^ 64
          if n1 < n' ∨ n1 > maxVal then .inl (maxVal, some .errRange)
          else digitLoop base base0 cutoff maxVal cs n1 us

/-- The base-prefix switch of Go `ParseUint` for `base == 0`: the base and
the digits that follow the prefix. -/
def basePrefix (s : List Nat) : Nat × List Nat :=
  if s.getD 0 0 = 48 then
    if s.length ≥ 3 ∧ lower (s.getD 1 0) = 98 then (2, s.drop 2)
    else if s.length ≥ 3 ∧ lower (s.getD 1 0) = 111 then (8, s.drop 2)
    else if s.length ≥ 3 ∧ lower (s.getD 1 0) = 120 then (16, s.drop 2)
    else (8, s.drop 1)
  else (10, s)

/-- Go `strconv.ParseUint(s, 0, 64)` on the bytes of `s`. -/
def ParseUint (s : List Nat) : Nat × Option NumError :=
  match s with
  | [] => (0, some .errSyntax)
  | _ :: _ =>
    let maxUint64 := 2 ^ 64 - 1
    let bp := basePrefix s
    let cutoff := maxUint64 / bp.1 + 1
    let maxVal := 2 ^ 64 - 1
    match digitLoop bp.1 true cutoff maxVal bp.2 0 false with
    | .inl r => r
    | .inr (n, us) =>
      if us = true ∧ underscoreOK s = false then (0, some .errSyntax) else (n, none)

/-- Go `strconv.ParseInt(s, 0, 64)` on the bytes of `s`. -/
def ParseInt (s : List Nat) : Int × Option NumError :=
  match s with
  | [] => (0, some .errSyntax)
  | c0 :: cs =>
    let neg := decide (c0 = 45)
    let body := if c0 = 43 ∨ c0 = 45 then cs else s
    match ParseUint body with
    | (_, some .errSyntax) => (0, some .errSyntax)
    | (un, _) =>
      let cutoff : Nat := 2 ^ 63
      if neg = false ∧ un ≥ cutoff then ((cutoff : Int) - 1, some .errRange)
      else if neg = true ∧ un > cutoff then (-(cutoff : Int), some .errRange)
      else if neg then (-(un : Int), none) else ((un : Int), none)

end strconv

/-- The bytes of a Go string. -/
def bytesOf (s : String) : List Nat := s.data.map Char.toNat

/-- Faults of the Go run time that the modelled code can raise. -/
inductive GoPanic where
  | indexOutOfRange (index length : Nat)
  | closeOfClosedChannel
  | sendOnClosedChannel
  deriving DecidableEq, Repr

/-- The outcome of running a Go function: it returns, or the run time faults. -/
inductive Outcome (α : Type) where
  | ret (a : α)
  | fault (p : GoPanic)
  deriving DecidableEq, Repr

namespace strings

/-- Go `strings.Split(s, sep)` for a one-byte separator, on characters. -/
def splitChars (sep : Char) : List Char → List (List Char)
  | [] => [[]]
  | c :: cs =>
    if c = sep then [] :: splitChars sep cs
    else
      match splitChars sep cs with
      | [] => [[c]]
      | f :: fs => (c :: f) :: fs

/-- Go `strings.Split(s, sep)` for a one-byte separator. -/
def Split (s : String) (sep : Char) : List String :=
  (splitChars sep s.data).map String.mk

end strings

namespace net

/-- Go `net.IPv4len`. -/
def IPv4len : Nat := 4

/-- Go `net.IPv6len`. -/
def IPv6len : Nat := 16

/-- Go `v4InV6Prefix`. -/
def v4InV6Prefix : List Nat := [0, 0, 0, 0, 0, 0, 0, 0, 0, 0, 0xff, 0xff]

/-- Go `net.IPv4(a, b, c, d)`: the 16-byte form of an IPv4 address. -/
def IPv4 (a b c d : Nat) : IP := v4InV6Prefix ++ [a, b, c, d]

/-- Go `net.IPv4zero`. -/
def IPv4zero : IP := IPv4 0 0 0 0

/-- Go `net.IPv6loopback`. -/
def IPv6loopback : IP := [0, 0, 0, 0, 0, 0, 0, 0, 0, 0, 0, 0, 0, 0, 0, 1]

/-- Go `isZeros`. -/
def isZeros (p : List Nat) : Bool := p.all (fun b => b == 0)

/-- Go `IP.To4`: the 4-byte form, or nil (the empty list) when `ip` is not an
IPv4 address. -/
def To4 (ip : IP) : IP :=
  if ip.length = IPv4len then ip
  else if ip.length = IPv6len ∧ isZeros (ip.take 10) = true ∧ ip.getD 10 0 = 0xff
      ∧ ip.getD 11 0 = 0xff then ip.drop 12
  else []

/-- Go `IP.Equal`: an IPv4 address and its 16-byte form are equal. -/
def Equal (ip x : IP) : Bool :=
  if ip.length = x.length then decide (ip = x)
  else if ip.length = IPv4len ∧ x.length = IPv6len then
    decide (x.take 12 = v4InV6Prefix) && decide (ip = x.drop 12)
  else if ip.length = IPv6len ∧ x.length = IPv4len then
    decide (ip.take 12 = v4InV6Prefix) && decide (ip.drop 12 = x)
  else false

/-- Go `IP.IsLoopback`. -/
def IsLoopback (ip : IP) : Bool :=
  if To4 ip ≠ [] then decide ((To4 ip).getD 0 0 = 127)
  else Equal ip IPv6loopback

/-- Go `net.IPNet`. -/
structure IPNet where
  IP : IP
  Mask : List Nat
  deriving DecidableEq, Repr

/-- Go `networkNumberAndMask`; `none` is the `nil, nil` result. -/
def networkNumberAndMask (n : IPNet) : Option (IP × List Nat) :=
  let ip? : Option IP :=
    if To4 n.IP ≠ [] then some (To4 n.IP)
    else if n.IP.length ≠ IPv6len then none else some n.IP
  match ip? with
  | none => none
  | some ip =>
    if n.Mask.length = IPv4len then
      if ip.length ≠ IPv4len then none else some (ip, n.Mask)
    else if n.Mask.length = IPv6len then
      if ip.length = IPv4len then some (ip, n.Mask.drop 12) else some (ip, n.Mask)
    else none

/-- Length of the run of zero groups at the head of `z`. -/
def zeroRunLen : List Bool → Nat
  | true :: r => zeroRunLen r + 1
  | _ => 0

/-- The search for the longest run of zero 16-bit groups in `IP.String`,
on group indices; `best` is `(e0, e1)` and only `e1 - e0` is compared, so
the initial `(-1, -1)` of the source is `(0, 0)` here. -/
def longestRun (z : List Bool) : Nat → Nat → Nat × Nat → Nat × Nat
  | 0, _, best => best
  | fuel + 1, i, best =>
    if i < 8 then
      let j := i + zeroRunLen (z.drop i)
      if j > i ∧ j - i > best.2 - best.1 then longestRun z fuel (j + 1) (i, j)
      else longestRun z fuel (i + 1) best
    else best

/-- The number of colons written by the printing loop of `IP.String` for a
16-byte address, from group `i` on; `run` is the compressed run, if any. -/
def printColons (run : Option (Nat × Nat)) : Nat → Nat → Nat
  | 0, _ => 0
  | fuel + 1, i =>
    if i < 8 then
      match run with
      | some (e0, e1) =>
        if i = e0 then 2 + (if e1 ≥ 8 then 0 else printColons run fuel (e1 + 1))
        else (if i > 0 then 1 else 0) + printColons run fuel (i + 1)
      | none => (if i > 0 then 1 else 0) + printColons run fuel (i + 1)
    else 0

/-- The zero flags of the eight 16-bit groups of a 16-byte address. -/
def zeroGroups (p : IP) : List Bool :=
  (List.range 8).map (fun k => decide (p.getD (2 * k) 0 = 0 ∧ p.getD (2 * k + 1) 0 = 0))

/-- The number of colons in the text of a 16-byte address that is not an
IPv4 address, from the zero flags of its groups. -/
def ipv6Colons (z : List Bool) : Nat :=
  let best := longestRun z 8 0 (0, 0)
  let run := if best.2 - best.1 ≤ 1 then none else some best
  printColons run 8 0

/-- The number of `":"` in Go `IP.String()`: none in `"<nil>"`, in dotted
notation and in `"?" + hex`; the IPv6 text has one between groups and two
for the compressed run of zeros (a run of one group is not compressed). -/
def IP.stringColons (p : IP) : Nat :=
  if p.length = 0 then 0
  else if (To4 p).length = IPv4len then 0
  else if p.length ≠ IPv6len then 0
  else ipv6Colons (zeroGroups p)

/-- The number of `":"` in Go `IPNet.String()`: `"<nil>"` has none, and the
mask part after `"/"` is decimal or hexadecimal digits. -/
def IPNet.stringColons (n : IPNet) : Nat :=
  match networkNumberAndMask n with
  | none => 0
  | some (nn, _) => IP.stringColons nn

/-- Go `net.Addr` values: `*net.IPNet`, or another implementation. -/
inductive Addr where
  | ipNet (v : IPNet)
  | other (text : String)
  deriving DecidableEq, Repr

/-- Go `net.Interface`. -/
structure Interface where
  Index : Nat
  MTU : Nat
  Name : String
  HardwareAddr : List Nat
  Flags : Nat
  deriving DecidableEq, Repr

end net

namespace binary

/-- Go `binary.LittleEndian.PutUint32` into a fresh 4-byte slice. -/
def PutUint32 (v : Nat) : List Nat :=
  [v % 256, v / 256 % 256, v / 65536 % 256, v / 16777216 % 256]

end binary

/-! ## `models` -/

namespace models

/-- Modelled from the spec: the `models.IfNetPack` declaration is not among the
sources; its three pointer fields are the ones `net.go` and `collector.go`
read and write (NetworkTuple: interface, local IPv4 network, default gateway). -/
structure IfNetPack where
  Interface : net.Interface
  Network : net.IPNet
  Gateway : IP
  deriving DecidableEq, Repr

end models

/-! ## `net.go` -/

namespace arcnet

open net models

/-- The scanning loop of `GetDefaultGateway` over the lines that
`bufio.Scanner` yields: the value of `res` when the loop ends, or the fault
of an index expression. -/
def scanRoute (ifName : String) : List String → Outcome IP
  | [] => .ret IPv4zero
  | line :: rest =>
    let fields := strings.Split line '\t'
    match fields[0]? with
    | none => .fault (.indexOutOfRange 0 fields.length)
    | some f0 =>
      if f0 = ifName then
        match fields[2]? with
        | none => .fault (.indexOutOfRange 2 fields.length)
        | some f2 =>
          let d64 := (strconv.ParseInt (bytesOf ("0x" ++ f2))).1
          if d64 ≠ 0 then
            let d32 := (d64 % 2 ^ 32).toNat
            .ret (binary.PutUint32 d32)
          else scanRoute ifName rest
      else scanRoute ifName rest

/-- The error `GetDefaultGateway` builds with `fmt.Errorf`. -/
def noGatewayError (ifName : String) : Error :=
  "Coulden't get default gateway for interface " ++ ifName

/-- Go `GetDefaultGateway(ifName)`; `route` is the result of opening and
scanning `/proc/net/route`: the error of `os.Open`, or the lines. -/
def GetDefaultGateway (ifName : String) (route : Except Error (List String)) :
    Outcome (IP × Option Error) :=
  match route with
  | .error e => .ret (IPv4zero, some e)
  | .ok lines =>
    match scanRoute ifName lines with
    | .fault p => .fault p
    | .ret res =>
      if Equal res IPv4zero then .ret (res, some (noGatewayError ifName))
      else .ret (res, none)

/-- What `&i` refers to once the `range` loop over the interfaces is done.
Up to Go 1.21 a `for` statement has one variable `i`, so every stored `&i`
is the same pointer and ends up at the last interface; from Go 1.22 each
iteration has its own `i`. -/
inductive LoopVar where
  | perIteration
  | shared
  deriving DecidableEq, Repr

/-- The inner loop of `GetAllLocalNets` over the addresses of interface `i`. -/
def addrLoop (i : Interface) (route : Except Error (List String)) :
    List Addr → List IfNetPack → Outcome (List IfNetPack)
  | [], res => .ret res
  | a :: rest, res =>
    match a with
    | .ipNet v =>
      if IPNet.stringColons v < 2 ∧ IsLoopback v.IP = false then
        match GetDefaultGateway i.Name route with
        | .fault p => .fault p
        | .ret (gw, gErr) =>
          if gErr = none then
            addrLoop i route rest (res ++ [{ Interface := i, Network := v, Gateway := gw }])
          else addrLoop i route rest res
      else addrLoop i route rest res
    | .other _ => addrLoop i route rest res

/-- The outer loop of `GetAllLocalNets`; `addrs i` is the result of `i.Addrs()`. -/
def ifaceLoop (addrs : Interface → Except Error (List Addr))
    (route : Except Error (List String)) :
    List Interface → List IfNetPack → Outcome (List IfNetPack)
  | [], res => .ret res
  | i :: rest, res =>
    match addrs i with
    | .error _ => ifaceLoop addrs route rest res
    | .ok as =>
      match addrLoop i route as res with
      | .fault p => .fault p
      | .ret res1 => ifaceLoop addrs route rest res1

/-- The tuples as the caller reads them through their `Interface` pointer. -/
def derefInterface (sem : LoopVar) (ifaces : List Interface) (res : List IfNetPack) :
    List IfNetPack :=
  match sem, ifaces.getLast? with
  | .shared, some last => res.map (fun p => { p with Interface := last })
  | _, _ => res

/-- Go `GetAllLocalNets()`; `ifaces` is the result of `net.Interfaces()`,
`addrs i` that of `i.Addrs()` and `route` the content of `/proc/net/route`. -/
def GetAllLocalNets (sem : LoopVar) (ifaces : Except Error (List Interface))
    (addrs : Interface → Except Error (List Addr)) (route : Except Error (List String)) :
    Outcome (List IfNetPack × Option Error) :=
  match ifaces with
  | .error e => .ret ([], some e)
  | .ok is =>
    match ifaceLoop addrs route is [] with
    | .fault p => .fault p
    | .ret res => .ret (derefInterface sem is res, none)

end arcnet

/-! ## The external ARP library and the configuration

The watcher is the library `github.com/irai/arp`; the collector uses its
types `MACEntry`, `IPEntry`, `Config` and `Handler`, and the methods
`AddNotificationChannel`, `ListenAndServe`, `WhoIs` and `Close` of `Handler`.
The constructor `arp.New` and `WhoIs` answer from the network and are inputs
of the functions that call them.
-/

/-- Go `time.Time` as an instant; the zero `Time` is `0`. -/
abbrev Time := Nat

namespace arp

/-- Go `arp.IPEntry` of the ARP library: an address and when it was seen. -/
structure IPEntry where
  IP : IP
  LastUpdated : Time
  deriving DecidableEq, Repr

/-- The zero value of `IPEntry`. -/
def IPEntry.zero : IPEntry := { IP := [], LastUpdated := 0 }

/-- Go `[4]arp.IPEntry`. -/
structure IPArray where
  e0 : IPEntry
  e1 : IPEntry
  e2 : IPEntry
  e3 : IPEntry
  deriving DecidableEq, Repr

/-- The four slots of the array, in order. -/
def IPArray.toList (a : IPArray) : List IPEntry := [a.e0, a.e1, a.e2, a.e3]

/-- Go `arp.MACEntry` of the ARP library, with the fields the collector
reads or writes; a composite literal leaves every other field at its zero
value. -/
structure MACEntry where
  MAC : List Nat
  IPArray : IPArray
  Online : Bool
  deriving DecidableEq, Repr

/-- The zero value of `MACEntry`, which a receive on a closed and drained
channel yields. -/
def MACEntry.zero : MACEntry :=
  { MAC := [], IPArray := ⟨IPEntry.zero, IPEntry.zero, IPEntry.zero, IPEntry.zero⟩,
    Online := false }

/-- Go `arp.Config`. -/
structure Config where
  NIC : String
  HostMAC : List Nat
  HostIP : IP
  RouterIP : IP
  HomeLAN : net.IPNet
  ProbeInterval : Nat
  FullNetworkScanInterval : Nat
  OfflineDeadline : Nat
  deriving DecidableEq, Repr

/-- The watcher `*arp.Handler` as the collector sees it: the configuration it
was built with, whether the shared intake is registered with it, whether
`ListenAndServe` has been started, and whether it has been closed. -/
structure Handler where
  config : Config
  notifying : Bool
  serving : Bool
  closed : Bool
  deriving DecidableEq, Repr

/-- Go `Handler.AddNotificationChannel`. -/
def Handler.AddNotificationChannel (h : Handler) : Handler := { h with notifying := true }

/-- Go `go Handler.ListenAndServe(ctx)`: the watcher is started. -/
def Handler.ListenAndServe (h : Handler) : Handler := { h with serving := true }

/-- Go `Handler.Close`: stops the watcher. Stopping a stopped watcher changes
nothing (NeighborWatcher contract: `stop` is idempotent). -/
def Handler.Close (h : Handler) : Handler := { h with closed := true }

end arp

namespace config

/-- Modelled from the spec: the `config.ArpConfig` declaration is not among
the sources; these are the fields `collector.go` reads. -/
structure ArpConfig where
  Verbose : Bool
  Subnets : List String
  ProbeInterval : Nat
  FullNetworkScanInterval : Nat
  OfflineDeadline : Nat
  deriving DecidableEq, Repr

end config

namespace models

/-- Modelled from the spec: the `models.CacheMessage` declaration is not among
the sources; `collector.go` writes its two fields (a NeighborEntry and the
static flag). -/
structure CacheMessage where
  Entry : arp.MACEntry
  Static : Bool
  deriving DecidableEq, Repr

end models

/-! ## `collector.go` -/

/-- A Go buffered channel: its capacity, the values written and not yet
received, oldest first, and whether it has been closed. -/
structure Chan (α : Type) where
  cap : Nat
  queue : List α
  closed : Bool
  deriving DecidableEq, Repr

/-- Go `make(chan T, cap)`. -/
def Chan.make {α : Type} (cap : Nat) : Chan α := { cap := cap, queue := [], closed := false }

/-- What a send on a channel does when nobody is receiving. -/
inductive SendResult (α : Type) where
  | sent (ch : Chan α)
  | full
  | closed
  deriving DecidableEq, Repr

/-- Go `ch <- v` with no receiver waiting: a send on a closed channel faults
(`closed`), a send on a channel whose buffer holds `cap` values suspends the
sender until a receiver has made room (`full`), any other send appends the
value to the buffer. -/
def Chan.send {α : Type} (ch : Chan α) (v : α) : SendResult α :=
  if ch.closed then .closed
  else if ch.cap ≤ ch.queue.length then .full
  else .sent { ch with queue := ch.queue ++ [v] }

/-- Go `close(ch)`: closing a closed channel faults. -/
def Chan.close {α : Type} (ch : Chan α) : Outcome (Chan α) :=
  if ch.closed then .fault .closeOfClosedChannel
  else .ret { ch with closed := true }

/-- Go `<-ch`: the oldest value; on a closed and drained channel the zero
value at once; `none` when the receiver has to wait. -/
def Chan.recv {α : Type} (zero : α) (ch : Chan α) : Option (α × Chan α) :=
  match ch.queue with
  | v :: rest => some (v, { ch with queue := rest })
  | [] => if ch.closed then some (zero, ch) else none

/-- How far a function that sends on a channel gets when nobody receives:
it returns, or it is suspended in a send with the value `pending`, or the
run time faults. The state is the one reached at that point. -/
inductive Run (σ μ : Type) where
  | returned (s : σ)
  | suspended (s : σ) (pending : μ)
  | faulted (p : GoPanic)
  deriving DecidableEq, Repr

namespace collector

open models

/-- Go `NetHandler`. -/
structure NetHandler where
  handler : arp.Handler
  ifNet : IfNetPack
  deriving DecidableEq, Repr

/-- Go `Collector`. The context `ctx` is created by `New` and never
cancelled by this file, so it carries no state here. -/
structure Collector where
  cfg : config.ArpConfig
  nethandlers : List NetHandler
  intChan : Chan arp.MACEntry
  ArpChannel : Chan CacheMessage
  deriving DecidableEq, Repr

/-- The value `acfg` that `getHandler` builds for a tuple. -/
def handlerConfig (np : IfNetPack) (cfg : config.ArpConfig) : arp.Config :=
  { NIC := np.Interface.Name
    HostMAC := np.Interface.HardwareAddr
    HostIP := net.To4 np.Network.IP
    RouterIP := np.Gateway
    HomeLAN := np.Network
    ProbeInterval := cfg.ProbeInterval
    FullNetworkScanInterval := cfg.FullNetworkScanInterval
    OfflineDeadline := cfg.OfflineDeadline }

/-- Go `getHandler`; `arpNew` is the constructor `arp.New` of the ARP
library. The result is `(res, nil)` as `.ok res` or `(nil, err)` as `.error err`. -/
def getHandler (arpNew : arp.Config → Except Error arp.Handler)
    (np : IfNetPack) (cfg : config.ArpConfig) : Except Error NetHandler :=
  match arpNew (handlerConfig np cfg) with
  | .ok handler => .ok { handler := handler, ifNet := np }
  | .error err => .error err

/-- The loop of `getAllHandlers`, `res` being the slice built so far. The
first component of the result is the slice returned (`none` is nil), the
second the error. -/
def getAllHandlersLoop (arpNew : arp.Config → Except Error arp.Handler)
    (cfg : config.ArpConfig) : List IfNetPack → List NetHandler →
    Option (List NetHandler) × Option Error
  | [], res => (some res, none)
  | np :: rest, res =>
    match getHandler arpNew np cfg with
    | .error err => (none, some err)
    | .ok h => getAllHandlersLoop arpNew cfg rest (res ++ [h])

/-- Go `getAllHandlers`. -/
def getAllHandlers (arpNew : arp.Config → Except Error arp.Handler)
    (nps : List IfNetPack) (cfg : config.ArpConfig) :
    Option (List NetHandler) × Option Error :=
  getAllHandlersLoop arpNew cfg nps []

/-- Go `New`; `nets` is the result of `arcnet.GetFilteredLocalNets(cfg.Subnets)`.
The assignment to the library switch `arp.Debug` is outside the model. -/
def New (arpNew : arp.Config → Except Error arp.Handler)
    (nets : List IfNetPack × Option Error) (cfg : config.ArpConfig) :
    Option Collector × Option Error :=
  match nets with
  | (nps, none) =>
    match getAllHandlers arpNew nps cfg with
    | (handlers, none) =>
      (some { cfg := cfg, nethandlers := handlers.getD [], intChan := Chan.make 256,
              ArpChannel := Chan.make 256 }, none)
    | (_, some err) => (none, some err)
  | (_, some err) => (none, some err)

/-- What the collector asks of its surroundings while it starts: the clock
reading and the answer of the watcher to `WhoIs`, both in iteration `k` of
the loop over the handlers. -/
structure Env where
  now : Nat → Time
  whoIs : Nat → arp.Handler → IP → Except Error arp.MACEntry

/-- Go `Collector.getSelfCacheMessage`; `now` is the reading of `time.Now()`. -/
def getSelfCacheMessage (now : Time) (h : NetHandler) : CacheMessage :=
  { Entry :=
      { MAC := h.ifNet.Interface.HardwareAddr
        IPArray :=
          { e0 := { IP := net.To4 h.ifNet.Network.IP, LastUpdated := now }
            e1 := arp.IPEntry.zero
            e2 := arp.IPEntry.zero
            e3 := arp.IPEntry.zero }
        Online := false }
    Static := true }

/-- Go `Collector.getGatewayCacheMessage`; `whoIs` is `h.handler.WhoIs`. The
result is `(res, nil)` as `.ok res` or `(nil, err)` as `.error err`. -/
def getGatewayCacheMessage (whoIs : arp.Handler → IP → Except Error arp.MACEntry)
    (h : NetHandler) : Except Error CacheMessage :=
  match whoIs h.handler h.ifNet.Gateway with
  | .ok mac => .ok { Entry := mac, Static := true }
  | .error err => .error err

/-- The first loop of `Collector.Start` from iteration `k` on: `done` are
the handlers already started, `out` is `c.ArpChannel`. The state of the
result is the handler list and the output channel. -/
def seedLoop (env : Env) : List NetHandler → Nat → List NetHandler →
    Chan CacheMessage → Run (List NetHandler × Chan CacheMessage) CacheMessage
  | [], _, done, out => .returned (done, out)
  | h :: rest, k, done, out =>
    let h1 : NetHandler :=
      { h with handler := (h.handler.AddNotificationChannel).ListenAndServe }
    let self := getSelfCacheMessage (env.now k) h1
    match out.send self with
    | .closed => .faulted .sendOnClosedChannel
    | .full => .suspended (done ++ h1 :: rest, out) self
    | .sent out1 =>
      match getGatewayCacheMessage (env.whoIs k) h1 with
      | .ok m =>
        match out1.send m with
        | .closed => .faulted .sendOnClosedChannel
        | .full => .suspended (done ++ h1 :: rest, out1) m
        | .sent out2 => seedLoop env rest (k + 1) (done ++ [h1]) out2
      | .error _ => seedLoop env rest (k + 1) (done ++ [h1]) out1

/-- Go `Collector.Start` up to the `go` statement that starts the
aggregation loop, with nobody receiving from the output meanwhile: the
collector as `Start` leaves it when it returns, or as it is while `Start`
is suspended in a send. -/
def Collector.Start (env : Env) (c : Collector) : Run Collector CacheMessage :=
  match seedLoop env c.nethandlers 0 [] c.ArpChannel with
  | .faulted p => .faulted p
  | .suspended (hs, out) m => .suspended { c with nethandlers := hs, ArpChannel := out } m
  | .returned (hs, out) => .returned { c with nethandlers := hs, ArpChannel := out }

/-- How an iteration of the aggregation loop ends. -/
inductive LoopStatus where
  | running
  | waiting
  | sending (pending : CacheMessage)
  | faulted (p : GoPanic)
  deriving DecidableEq, Repr

/-- One iteration of the `for { select { case m := <-c.intChan: ... } }`
loop that `Start` runs in its own goroutine: `waiting` when the receive has
to wait for a value, `sending` when the entry has been received and the
send is suspended on the full output, `faulted` when the send faults,
`running` when the iteration completes and the loop goes round again. The
loop has no `return` and no `break`, so no iteration leaves it. -/
def aggregateStep (c : Collector) : LoopStatus × Collector :=
  match c.intChan.recv arp.MACEntry.zero with
  | none => (.waiting, c)
  | some (m, intake) =>
    if m.Online then
      match c.ArpChannel.send { Entry := m, Static := false } with
      | .closed => (.faulted .sendOnClosedChannel, { c with intChan := intake })
      | .full => (.sending { Entry := m, Static := false }, { c with intChan := intake })
      | .sent out => (.running, { c with intChan := intake, ArpChannel := out })
    else (.running, { c with intChan := intake })

/-- A run of the aggregation loop cut off after `n` iterations. -/
structure LoopRun where
  iterations : Nat
  status : LoopStatus
  state : Collector
  deriving DecidableEq, Repr

/-- The aggregation loop for at most `n` iterations: it goes on as long as
the iterations complete. -/
def aggregate : Nat → Collector → LoopRun
  | 0, c => { iterations := 0, status := .running, state := c }
  | n + 1, c =>
    match aggregateStep c with
    | (.running, c1) =>
      let r := aggregate n c1
      { r with iterations := r.iterations + 1 }
    | (st, c1) => { iterations := 0, status := st, state := c1 }

/-- The calls `Close` makes. -/
inductive CloseEvent where
  | watcherClose (index : Nat)
  | closeIntake
  | closeOutput
  deriving DecidableEq, Repr

/-- The `range` loop of `Collector.Close`: `pre` are the handlers whose
watcher has been closed, the second list the handlers still to come. Each
call `h.handler.Close()` is listed with the collector as it is right after
the call. -/
def closeHandlers (c : Collector) : List NetHandler → List NetHandler →
    List (CloseEvent × Collector)
  | _, [] => []
  | pre, h :: rest =>
    let pre1 := pre ++ [{ h with handler := h.handler.Close }]
    (CloseEvent.watcherClose pre.length, { c with nethandlers := pre1 ++ rest })
      :: closeHandlers c pre1 rest

/-- The collector after a list of calls: the state the last call left, or
`c` when no call was made. -/
def stateAfter (c : Collector) : List (CloseEvent × Collector) → Collector
  | [] => c
  | s :: rest => stateAfter s.2 rest

/-- A run of `Collector.Close`: the calls completed, in order, each with the
collector as it is right after the call; the collector the run leaves; and
the fault that ended it, if any. -/
structure CloseRun where
  steps : List (CloseEvent × Collector)
  state : Collector
  fault : Option GoPanic
  deriving DecidableEq, Repr

/-- The calls a run of `Close` completed, in order. -/
def CloseRun.events (r : CloseRun) : List CloseEvent := r.steps.map (fun s => s.1)

/-- Go `Collector.Close`. -/
def Collector.Close (c : Collector) : CloseRun :=
  let s1 := closeHandlers c [] c.nethandlers
  let c1 := stateAfter c s1
  match c1.intChan.close with
  | .fault p => { steps := s1, state := c1, fault := some p }
  | .ret intake =>
    let c2 : Collector := { c1 with intChan := intake }
    match c2.ArpChannel.close with
    | .fault p => { steps := s1 ++ [(.closeIntake, c2)], state := c2, fault := some p }
    | .ret out =>
      let c3 : Collector := { c2 with ArpChannel := out }
      { steps := s1 ++ [(.closeIntake, c2), (.closeOutput, c3)], state := c3, fault := none }

end collector

/-! ## The wording of the specification, for comparison with the code -/

namespace Spec

open net

/-- The value of one hexadecimal digit. -/
def hexDigit? (c : Char) : Option Nat :=
  if 48 ≤ c.toNat ∧ c.toNat ≤ 57 then some (c.toNat - 48)
  else if 97 ≤ c.toNat ∧ c.toNat ≤ 102 then some (c.toNat - 87)
  else if 65 ≤ c.toNat ∧ c.toNat ≤ 70 then some (c.toNat - 55)
  else none

/-- The value of a run of hexadecimal digits appended to the number `n`. -/
def hexFold : Nat → List Char → Option Nat
  | n, [] => some n
  | n, c :: cs =>
    match hexDigit? c with
    | some d => hexFold (n * 16 + d) cs
    | none => none

/-- The number a text denotes when it is a hexadecimal number: one or more
hexadecimal digits and nothing else. -/
def hexValue? (s : String) : Option Nat :=
  if s.data = [] then none else hexFold 0 s.data

/-- The 4 bytes of `g` in little-endian order: byte `i` is `(g / 256^i) mod 256`. -/
def littleEndian4 (g : Nat) : IP := (List.range 4).map (fun i => g / 256 ^ i % 256)

/-- A line qualifies in the words of the claim when its first field is the
interface name and its third field is a non-zero hexadecimal number below
`2^32`; the result is that number. -/
def qualifies (ifName : String) (line : String) : Option Nat :=
  let fields := strings.Split line '\t'
  if fields[0]? = some ifName then
    match fields[2]? with
    | some f2 =>
      match hexValue? f2 with
      | some g => if g ≠ 0 ∧ g < 2 ^ 32 then some g else none
      | none => none
    | none => none
  else none

/-- The gateway and error the claim describes: decided by the first
qualifying line, `0.0.0.0` and an error without one. -/
def claimedGateway (ifName : String) (lines : List String) : IP × Option Error :=
  match lines.findSome? (qualifies ifName) with
  | some g => (littleEndian4 g, none)
  | none => (IPv4zero, some (arcnet.noGatewayError ifName))

/-- The value the code reads from the third field of a line: the first
result of `strconv.ParseInt("0x" + field, 0, 64)`, its error dropped. -/
def gatewayValue (line : String) : Int :=
  (strconv.ParseInt (bytesOf ("0x" ++ ((strings.Split line '\t')[2]?).getD ""))).1

/-- A line decides the result of the scan when its first field is the
interface name and the value read from its third field is not zero. -/
def decides (ifName : String) (line : String) : Bool :=
  decide ((strings.Split line '\t')[0]? = some ifName) && decide (gatewayValue line ≠ 0)

/-- The gateway and error decided by the first deciding line: the low 32
bits of its value in little-endian order, with an error when they are zero. -/
def decodedGateway (ifName : String) (lines : List String) : IP × Option Error :=
  match lines.find? (decides ifName) with
  | some l =>
    let g := (gatewayValue l % 2 ^ 32).toNat
    (littleEndian4 g, if g = 0 then some (arcnet.noGatewayError ifName) else none)
  | none => (IPv4zero, some (arcnet.noGatewayError ifName))

/-- An address is an IPv4 address when it has a 4-byte form. -/
def isIPv4 (v : IPNet) : Bool := decide (To4 v.IP ≠ [])

/-- An IPv4 address is a loopback address when it lies in `127.0.0.0/8`. -/
def isLoopback (v : IPNet) : Bool := decide ((To4 v.IP).head? = some 127)

/-- The addresses an interface reports: an IPv4 network, or an IPv6 network
(16 bytes that are not an IPv4 address, with a 16-byte mask), or an address
of another kind. -/
def WellFormed : Addr → Prop
  | .ipNet v => To4 v.IP ≠ [] ∨ (v.IP.length = 16 ∧ To4 v.IP = [] ∧ v.Mask.length = 16)
  | .other _ => True

/-- The non-loopback IPv4 network of an address, if it is one. -/
def nonLoopbackIPv4? : Addr → Option IPNet
  | .ipNet v => if isIPv4 v = true ∧ isLoopback v = false then some v else none
  | .other _ => none

/-- The non-loopback IPv4 networks of every interface, in enumeration order:
the networks for which the claim expects a tuple. -/
def claimedNetworks (ifaces : List Interface) (addrs : Interface → Except Error (List Addr)) :
    List (Interface × IPNet) :=
  ifaces.flatMap (fun i =>
    match addrs i with
    | .ok as => (as.filterMap nonLoopbackIPv4?).map (fun v => (i, v))
    | .error _ => [])

/-- The default gateway of an interface when `GetDefaultGateway` determines it. -/
def gatewayOf (ifName : String) (route : Except Error (List String)) : Option IP :=
  match arcnet.GetDefaultGateway ifName route with
  | .ret (gw, none) => some gw
  | _ => none

/-- The tuples of one interface: one for each of its non-loopback IPv4
networks when its gateway is determined, none otherwise. -/
def tuplesOf (addrs : Interface → Except Error (List Addr))
    (route : Except Error (List String)) (i : Interface) : List models.IfNetPack :=
  match addrs i, gatewayOf i.Name route with
  | .ok as, some gw =>
    (as.filterMap nonLoopbackIPv4?).map (fun v => { Interface := i, Network := v, Gateway := gw })
  | _, _ => []

/-- The tuples of all interfaces, in enumeration order. -/
def expectedNets (ifaces : List Interface) (addrs : Interface → Except Error (List Addr))
    (route : Except Error (List String)) : List models.IfNetPack :=
  ifaces.flatMap (tuplesOf addrs route)

/-- The route table has no line with fewer than three tab-separated fields. -/
def RouteWellFormed (route : Except Error (List String)) : Prop :=
  match route with
  | .ok lines => ∀ l ∈ lines, 3 ≤ (strings.Split l '\t').length
  | .error _ => True

open collector models in
/-- A handler once `Start` has registered the intake with its watcher and
started it. -/
def started (h : NetHandler) : NetHandler :=
  { h with handler := { h.handler with notifying := true, serving := true } }

open collector models in
/-- The static messages of network number `k`: its self message, followed
by its gateway message exactly when the lookup succeeded. -/
def networkSeed (env : Env) (k : Nat) (h : NetHandler) : List CacheMessage :=
  getSelfCacheMessage (env.now k) (started h) ::
    (match env.whoIs k (started h).handler h.ifNet.Gateway with
     | .ok mac => [{ Entry := mac, Static := true }]
     | .error _ => [])

open collector models in
/-- The static messages of all networks, in enumeration order, the first
network having number `k`. -/
def seedMessagesFrom (env : Env) (k : Nat) (hs : List NetHandler) : List CacheMessage :=
  ((hs.enumFrom k).map (fun kh => networkSeed env kh.1 kh.2)).flatten

open collector in
/-- The number of networks whose gateway lookup succeeds, the first network
having number `k`. -/
def lookupsOkFrom (env : Env) (k : Nat) (hs : List NetHandler) : Nat :=
  (hs.enumFrom k).countP
    (fun kh => (env.whoIs kh.1 (started kh.2).handler kh.2.ifNet.Gateway).isOk)

open collector in
/-- A handler whose watcher has been stopped. -/
def stopped (h : NetHandler) : NetHandler :=
  { h with handler := { h.handler with closed := true } }

open collector in
/-- The collector once the watchers of its first `k` handlers have been
stopped: these `k` handlers are stopped, the others and both channels are
as they were. -/
def afterWatchers (c : Collector) (k : Nat) : Collector :=
  { c with nethandlers := (c.nethandlers.take k).map stopped ++ c.nethandlers.drop k }

open collector in
/-- The shutdown in the words of the claim: a stop of every watcher of the
handler list, in list order, then the close of the intake, then the close
of the output, each with the collector as it is right after the call. -/
def shutdownSteps (c : Collector) : List (CloseEvent × Collector) :=
  (List.range c.nethandlers.length).map
      (fun k => (CloseEvent.watcherClose k, afterWatchers c (k + 1)))
    ++ [(CloseEvent.closeIntake,
          { afterWatchers c c.nethandlers.length with
            intChan := { c.intChan with closed := true } }),
        (CloseEvent.closeOutput,
          { afterWatchers c c.nethandlers.length with
            intChan := { c.intChan with closed := true }
            ArpChannel := { c.ArpChannel with closed := true } })]

open collector in
/-- The slots of an entry that hold an address: its IP observations. -/
def observations (e : arp.MACEntry) : List arp.IPEntry :=
  e.IPArray.toList.filter (fun s => decide (s.IP ≠ []))

end Spec

/-! ## Concrete hosts and collectors, used to instantiate the theorems -/

namespace Sample

open net models collector

/-- An Ethernet interface. -/
def eth0 : Interface :=
  { Index := 2, MTU := 1500, Name := "eth0", HardwareAddr := [0x02, 0x42, 0xac, 0x11, 0x00, 0x02],
    Flags := 19 }

/-- The loopback interface. -/
def lo : Interface :=
  { Index := 1, MTU := 65536, Name := "lo", HardwareAddr := [], Flags := 5 }

/-- The network `192.168.1.5/24`, as `Interface.Addrs` reports it. -/
def lan : IPNet := { IP := IPv4 192 168 1 5, Mask := [255, 255, 255, 0] }

/-- The network `127.0.0.1/8`. -/
def loopNet : IPNet := { IP := IPv4 127 0 0 1, Mask := [255, 0, 0, 0] }

/-- The network `fe80::1/64`. -/
def linkLocal : IPNet :=
  { IP := [0xfe, 0x80, 0, 0, 0, 0, 0, 0, 0, 0, 0, 0, 0, 0, 0, 1]
    Mask := [255, 255, 255, 255, 255, 255, 255, 255, 0, 0, 0, 0, 0, 0, 0, 0] }

/-- The addresses of the two interfaces. -/
def addrs (i : Interface) : Except Error (List Addr) :=
  if i.Name = "eth0" then .ok [.ipNet lan, .ipNet linkLocal] else .ok [.ipNet loopNet]

/-- A route table with a default route through `192.168.1.1` on `eth0`. -/
def routeLines : List String :=
  ["Iface\tDestination\tGateway \tFlags",
   "eth0\t00000000\t0101A8C0\t0003",
   "eth0\t0001A8C0\t00000000\t0001"]

/-- A route table in which the gateway field of the `eth0` line exceeds 32 bits. -/
def wideLines : List String := ["eth0\t00000000\t1000000FF\t0003"]

/-- A route table with no default route: the only `eth0` line is the route
to the local network, whose gateway field is zero. -/
def localOnlyLines : List String :=
  ["Iface\tDestination\tGateway \tFlags", "eth0\t0001A8C0\t00000000\t0001"]

/-- The tuple of `eth0`. -/
def np0 : IfNetPack := { Interface := eth0, Network := lan, Gateway := [192, 168, 1, 1] }

/-- A second tuple, on an interface for which the watcher cannot be built. -/
def np1 : IfNetPack :=
  { Interface := { eth0 with Index := 3, Name := "eth1" }
    Network := { IP := IPv4 10 0 0 7, Mask := [255, 0, 0, 0] }
    Gateway := [10, 0, 0, 1] }

/-- A configuration. -/
def cfg : config.ArpConfig :=
  { Verbose := false, Subnets := [], ProbeInterval := 60, FullNetworkScanInterval := 3600,
    OfflineDeadline := 300 }

/-- A watcher constructor that fails on `eth1`. -/
def arpNew (c : arp.Config) : Except Error arp.Handler :=
  if c.NIC = "eth1" then .error "arp: cannot open eth1"
  else .ok { config := c, notifying := false, serving := false, closed := false }

/-- The watcher built for `np0`. -/
def handler0 : arp.Handler :=
  { config :=
      { NIC := "eth0", HostMAC := eth0.HardwareAddr, HostIP := [192, 168, 1, 5],
        RouterIP := [192, 168, 1, 1], HomeLAN := lan, ProbeInterval := 60,
        FullNetworkScanInterval := 3600, OfflineDeadline := 300 }
    notifying := false, serving := false, closed := false }

/-- The handler set of `np0`. -/
def h0 : NetHandler := { handler := handler0, ifNet := np0 }

/-- A neighbour that is online. -/
def online : arp.MACEntry :=
  { MAC := [0xaa, 0xbb, 0xcc, 0x00, 0x00, 0x01]
    IPArray := ⟨⟨[192, 168, 1, 20], 1700000000⟩, arp.IPEntry.zero, arp.IPEntry.zero,
      arp.IPEntry.zero⟩
    Online := true }

/-- The same neighbour gone offline. -/
def offline : arp.MACEntry := { online with Online := false }

/-- The collector `New` builds for the one network `np0`. -/
def fresh : Collector :=
  { cfg := cfg, nethandlers := [h0], intChan := Chan.make 256, ArpChannel := Chan.make 256 }

/-- The collector with three notifications waiting in the intake. -/
def busy : Collector :=
  { fresh with intChan := { cap := 256, queue := [online, offline, online], closed := false } }

/-- The collector `New` builds for 257 networks. -/
def crowded : Collector :=
  { fresh with
    nethandlers := (List.range 257).map (fun k =>
      { h0 with ifNet := { np0 with Interface := { eth0 with Index := k } } }) }

/-- A collector whose output holds 256 messages that nobody has received,
with one online notification waiting in the intake. -/
def backlog : Collector :=
  { fresh with
    intChan := { cap := 256, queue := [online], closed := false }
    ArpChannel :=
      { cap := 256, queue := List.replicate 256 { Entry := online, Static := false },
        closed := false } }

/-- Surroundings in which the gateway does not answer. -/
def quiet : Env :=
  { now := fun k => 1700000000 + k, whoIs := fun _ _ _ => .error "arp: timeout" }

/-- Surroundings in which the gateway answers. -/
def answering : Env :=
  { now := fun k => 1700000000 + k
    whoIs := fun _ _ ip =>
      .ok { MAC := [0x00, 0x11, 0x22, 0x33, 0x44, 0x55]
            IPArray := ⟨⟨ip, 1700000000⟩, arp.IPEntry.zero, arp.IPEntry.zero, arp.IPEntry.zero⟩
            Online := true } }

end Sample

/-! ## Theorems: `net.go` -/

namespace arcnet

open net models

theorem littleEndian4_eq (g : Nat) : Spec.littleEndian4 g = binary.PutUint32 g := by
  simp [Spec.littleEndian4, binary.PutUint32, List.range_succ]

theorem equal_put_zero (g : Nat) (hg : g < 2 ^ 32) :
    Equal (binary.PutUint32 g) IPv4zero = decide (g = 0) := by
  have h1 : Equal (binary.PutUint32 g) IPv4zero
      = decide (binary.PutUint32 g = [0, 0, 0, 0]) := by
    simp [Equal, binary.PutUint32, IPv4zero, IPv4, v4InV6Prefix, IPv4len, IPv6len]
  rw [h1]
  congr 1
  simp only [binary.PutUint32, List.cons.injEq, and_true, eq_iff_iff]
  constructor
  · rintro ⟨a, b, c, d⟩
    omega
  · rintro rfl
    simp

theorem scanRoute_eq (ifName : String) (lines : List String)
    (h3 : ∀ l ∈ lines, 3 ≤ (strings.Split l '\t').length) :
    scanRoute ifName lines = .ret
      (match lines.find? (Spec.decides ifName) with
       | some l => binary.PutUint32 ((Spec.gatewayValue l % 2 ^ 32).toNat)
       | none => IPv4zero) := by
  induction lines with
  | nil => rfl
  | cons l rest ih =>
    have hl := h3 l (List.mem_cons_self _ _)
    have ih1 := ih (fun x hx => h3 x (List.mem_cons_of_mem _ hx))
    obtain ⟨f0, hf0⟩ : ∃ f0, (strings.Split l '\t')[0]? = some f0 :=
      ⟨_, List.getElem?_eq_getElem (by omega)⟩
    obtain ⟨f2, hf2⟩ : ∃ f2, (strings.Split l '\t')[2]? = some f2 :=
      ⟨_, List.getElem?_eq_getElem (by omega)⟩
    simp only [scanRoute, hf0, hf2, List.find?_cons, Spec.decides, Spec.gatewayValue,
      Option.getD_some, Option.some.injEq]
    by_cases hname : f0 = ifName
    · by_cases hz : (strconv.ParseInt (bytesOf ("0x" ++ f2))).1 = 0
      · simp [hname, hz, ih1, Spec.decides, Spec.gatewayValue]
      · simp [hname, hz, hf2]
    · simp [hname, ih1, Spec.decides, Spec.gatewayValue]

theorem hexFold_le (cs : List Char) (n g : Nat) (h : Spec.hexFold n cs = some g) : n ≤ g := by
  induction cs generalizing n with
  | nil => simp [Spec.hexFold] at h; omega
  | cons c cs ih =>
    simp only [Spec.hexFold] at h
    cases hd : Spec.hexDigit? c with
    | none => simp [hd] at h
    | some d =>
      simp only [hd] at h
      have := ih _ h
      omega

theorem hexDigit_byte (c : Char) (d : Nat) (h : Spec.hexDigit? c = some d) :
    c.toNat ≠ 95 ∧ d < 16 ∧
    (if 48 ≤ c.toNat ∧ c.toNat ≤ 57 then some (c.toNat - 48)
     else if 97 ≤ strconv.lower c.toNat ∧ strconv.lower c.toNat ≤ 122 then
       some (strconv.lower c.toNat - 97 + 10)
     else none) = some d := by
  unfold Spec.hexDigit? at h
  generalize c.toNat = b at h
  split_ifs at h with h1 h2 h3
  · obtain ⟨ha, hb⟩ := h1
    simp only [Option.some.injEq] at h
    subst h
    interval_cases b <;> simp
  · obtain ⟨ha, hb⟩ := h2
    simp only [Option.some.injEq] at h
    subst h
    interval_cases b <;> simp [strconv.lower]
  · obtain ⟨ha, hb⟩ := h3
    simp only [Option.some.injEq] at h
    subst h
    interval_cases b <;> simp [strconv.lower]

theorem digitLoop_hex (cs : List Char) (n g : Nat) (hn : n < 2 ^ 64)
    (h : Spec.hexFold n cs = some g) :
    strconv.digitLoop 16 true (2 ^ 60) (2 ^ 64 - 1) (cs.map Char.toNat) n false
      = if g < 2 ^ 64 then .inr (g, false) else .inl (2 ^ 64 - 1, some .errRange) := by
  induction cs generalizing n with
  | nil =>
    simp only [Spec.hexFold, Option.some.injEq] at h
    subst h
    have hn' : n < 18446744073709551616 := by omega
    simp [strconv.digitLoop, hn']
  | cons c cs ih =>
    simp only [Spec.hexFold] at h
    cases hd : Spec.hexDigit? c with
    | none => simp [hd] at h
    | some d =>
      simp only [hd] at h
      obtain ⟨h95, hd16, hdig⟩ := hexDigit_byte c d hd
      have hle := hexFold_le _ _ _ h
      simp only [List.map_cons, strconv.digitLoop, h95, false_and, if_false, hdig]
      by_cases hcut : n ≥ 2 ^ 60
      · have hg : ¬ g < 18446744073709551616 := by omega
        have hd' : ¬ d ≥ 16 := by omega
        have hcut' : 1152921504606846976 ≤ n := by omega
        simp [hcut', hg, hd']
      · have hd' : ¬ d ≥ 16 := by omega
        have e1 : n * 16 % 2 ^ 64 = n * 16 := Nat.mod_eq_of_lt (by omega)
        have e2 : (n * 16 + d) % 2 ^ 64 = n * 16 + d := Nat.mod_eq_of_lt (by omega)
        have hov : ¬ (n * 16 + d < n * 16 ∨ n * 16 + d > 2 ^ 64 - 1) := by omega
        simp only [hd', hcut, if_false, e1, e2, hov]
        exact ih _ (by omega) h

theorem basePrefix_hex (b : Nat) (bs : List Nat) :
    strconv.basePrefix (48 :: 120 :: b :: bs) = (16, b :: bs) := by
  simp [strconv.basePrefix, strconv.lower]

theorem parseUint_hex_digits (b : Nat) (bs : List Nat) (n : Nat)
    (h : strconv.digitLoop 16 true (2 ^ 60) (2 ^ 64 - 1) (b :: bs) 0 false = .inr (n, false)) :
    strconv.ParseUint (48 :: 120 :: b :: bs) = (n, none) := by
  have hcut : (2 ^ 64 - 1) / 16 + 1 = 2 ^ 60 := by norm_num
  simp only [strconv.ParseUint, basePrefix_hex, hcut, h]
  simp

theorem parseUint_hex_range (b : Nat) (bs : List Nat)
    (h : strconv.digitLoop 16 true (2 ^ 60) (2 ^ 64 - 1) (b :: bs) 0 false
      = .inl (2 ^ 64 - 1, some .errRange)) :
    strconv.ParseUint (48 :: 120 :: b :: bs) = (2 ^ 64 - 1, some .errRange) := by
  have hcut : (2 ^ 64 - 1) / 16 + 1 = 2 ^ 60 := by norm_num
  simp only [strconv.ParseUint, basePrefix_hex, hcut, h]

theorem parseInt_of_uint (b : Nat) (bs : List Nat) (un : Nat) (e : Option strconv.NumError)
    (he : e ≠ some .errSyntax) (h : strconv.ParseUint (48 :: 120 :: b :: bs) = (un, e)) :
    strconv.ParseInt (48 :: 120 :: b :: bs)
      = if un ≥ 2 ^ 63 then (2 ^ 63 - 1, some .errRange) else ((un : Int), none) := by
  simp only [strconv.ParseInt]
  have h1 : (if (48 : Nat) = 43 ∨ (48 : Nat) = 45 then 120 :: b :: bs else 48 :: 120 :: b :: bs)
      = 48 :: 120 :: b :: bs := by simp
  rw [h1, h]
  cases e with
  | none => simp
  | some k =>
    cases k with
    | errSyntax => exact absurd rfl he
    | errRange => simp

theorem parseInt_hex (f : String) (g : Nat) (h : Spec.hexValue? f = some g) :
    strconv.ParseInt (bytesOf ("0x" ++ f))
      = if g < 2 ^ 63 then ((g : Int), none) else (2 ^ 63 - 1, some .errRange) := by
  unfold Spec.hexValue? at h
  split_ifs at h with hnil
  obtain ⟨c, cs, hcs⟩ : ∃ c cs, f.data = c :: cs := by
    cases hf : f.data with
    | nil => exact absurd hf hnil
    | cons c cs => exact ⟨c, cs, rfl⟩
  have hb : bytesOf ("0x" ++ f) = 48 :: 120 :: (f.data.map Char.toNat) := by
    simp [bytesOf, String.data_append]
  have hloop := digitLoop_hex f.data 0 g (by norm_num) h
  rw [hb, hcs]
  rw [hcs] at hloop
  simp only [List.map_cons] at hloop ⊢
  by_cases h64 : g < 2 ^ 64
  · rw [if_pos h64] at hloop
    rw [parseInt_of_uint _ _ g none (by simp) (parseUint_hex_digits _ _ _ hloop)]
    by_cases h63 : g < 2 ^ 63
    · rw [if_neg (by omega), if_pos h63]
    · rw [if_pos (by omega), if_neg h63]
  · rw [if_neg h64] at hloop
    rw [parseInt_of_uint _ _ _ (some .errRange) (by simp) (parseUint_hex_range _ _ hloop)]
    rw [if_pos (by norm_num), if_neg (by omega)]

theorem getDefaultGateway_eq (ifName : String) (lines : List String)
    (h3 : ∀ l ∈ lines, 3 ≤ (strings.Split l '\t').length) :
    GetDefaultGateway ifName (.ok lines) = .ret (Spec.decodedGateway ifName lines) := by
  simp only [GetDefaultGateway, scanRoute_eq ifName lines h3, Spec.decodedGateway]
  cases hfind : lines.find? (Spec.decides ifName) with
  | none => simp [Equal, IPv4zero]
  | some l =>
    have hlt : (Spec.gatewayValue l % 2 ^ 32).toNat < 2 ^ 32 := by omega
    simp only [equal_put_zero _ hlt, littleEndian4_eq]
    generalize (Spec.gatewayValue l % 2 ^ 32).toNat = g
    by_cases hz : g = 0 <;> simp [hz]

theorem decodedGateway_error_iff (ifName : String) (lines : List String) :
    (Spec.decodedGateway ifName lines).2 ≠ none
      ↔ Equal (Spec.decodedGateway ifName lines).1 IPv4zero = true := by
  simp only [Spec.decodedGateway]
  cases hfind : lines.find? (Spec.decides ifName) with
  | none => simp [Equal, IPv4zero]
  | some l =>
    have hlt : (Spec.gatewayValue l % 2 ^ 32).toNat < 2 ^ 32 := by omega
    simp only [littleEndian4_eq, equal_put_zero _ hlt]
    generalize (Spec.gatewayValue l % 2 ^ 32).toNat = g
    by_cases hz : g = 0 <;> simp [hz]

theorem gatewayValue_hex (l : String) (g : Nat)
    (hg : Spec.hexValue? (((strings.Split l '\t')[2]?).getD "") = some g) :
    Spec.gatewayValue l = min (g : Int) (2 ^ 63 - 1) := by
  simp only [Spec.gatewayValue, parseInt_hex _ g hg]
  by_cases h63 : g < 2 ^ 63
  · rw [if_pos h63]
    simp only
    omega
  · rw [if_neg h63]
    simp only
    omega

theorem ipv6Colons_ge (a b c d e f g h : Bool) : 2 ≤ ipv6Colons [a, b, c, d, e, f, g, h] := by
  revert a b c d e f g h
  decide

theorem zeroGroups_eq (p : IP) : ∃ a b c d e f g h, zeroGroups p = [a, b, c, d, e, f, g, h] :=
  ⟨_, _, _, _, _, _, _, _, rfl⟩

theorem To4_of_length (q : IP) (h : q.length = 4) : To4 q = q := by
  simp [To4, h, IPv4len]

theorem stringColons_v4 (v : IPNet) (h4 : To4 v.IP ≠ []) : IPNet.stringColons v = 0 := by
  have hlen : (To4 v.IP).length = 4 := by
    unfold To4 at h4 ⊢
    split_ifs at h4 ⊢ with h1 h2
    · exact h1
    · simp only [List.length_drop]
      simp only [IPv6len] at h2
      omega
    · exact absurd rfl h4
  have hto : To4 (To4 v.IP) = To4 v.IP := To4_of_length _ hlen
  simp only [IPNet.stringColons, networkNumberAndMask, h4, ne_eq, not_false_eq_true, if_true]
  have hc : IP.stringColons (To4 v.IP) = 0 := by
    simp [IP.stringColons, hlen, hto, IPv4len]
  split_ifs <;> simp_all [IPv4len]

theorem stringColons_v6 (v : IPNet) (hlen : v.IP.length = 16) (h4 : To4 v.IP = [])
    (hm : v.Mask.length = 16) : 2 ≤ IPNet.stringColons v := by
  obtain ⟨a, b, c, d, e, f, g, h, hz⟩ := zeroGroups_eq v.IP
  have hc : IP.stringColons v.IP = ipv6Colons [a, b, c, d, e, f, g, h] := by
    simp [IP.stringColons, hlen, h4, IPv4len, IPv6len, hz]
  have : IPNet.stringColons v = IP.stringColons v.IP := by
    simp [IPNet.stringColons, networkNumberAndMask, h4, hlen, hm, IPv4len, IPv6len]
  rw [this, hc]
  exact ipv6Colons_ge _ _ _ _ _ _ _ _

theorem isLoopback_v4 (v : IPNet) (h4 : To4 v.IP ≠ []) :
    IsLoopback v.IP = Spec.isLoopback v := by
  simp only [IsLoopback, h4, ne_eq, not_false_eq_true, if_true, Spec.isLoopback]
  cases hq : To4 v.IP with
  | nil => exact absurd hq h4
  | cons x xs => simp

theorem accepts_iff (v : IPNet) (hwf : Spec.WellFormed (.ipNet v)) :
    (IPNet.stringColons v < 2 ∧ IsLoopback v.IP = false)
      ↔ (Spec.isIPv4 v = true ∧ Spec.isLoopback v = false) := by
  rcases hwf with h4 | ⟨hlen, h4, hm⟩
  · simp [stringColons_v4 v h4, isLoopback_v4 v h4, Spec.isIPv4, h4]
  · have := stringColons_v6 v hlen h4 hm
    simp only [Spec.isIPv4, h4, ne_eq, not_true_eq_false, decide_False, Bool.false_eq_true,
      false_and, iff_false, not_and]
    intro hlt
    omega

theorem gateway_returns (ifName : String) (route : Except Error (List String))
    (hr : Spec.RouteWellFormed route) :
    ∃ gw err, GetDefaultGateway ifName route = .ret (gw, err) := by
  cases route with
  | error e => exact ⟨_, _, rfl⟩
  | ok lines => exact ⟨_, _, getDefaultGateway_eq ifName lines hr⟩

theorem addrLoop_eq (i : Interface) (route : Except Error (List String))
    (hr : Spec.RouteWellFormed route) (as : List Addr) (res : List IfNetPack)
    (hwf : ∀ a ∈ as, Spec.WellFormed a) :
    addrLoop i route as res = .ret (res ++
      (match Spec.gatewayOf i.Name route with
       | some gw => (as.filterMap Spec.nonLoopbackIPv4?).map
           (fun v => { Interface := i, Network := v, Gateway := gw })
       | none => [])) := by
  obtain ⟨gw, err, hgw⟩ := gateway_returns i.Name route hr
  induction as generalizing res with
  | nil => cases hg : Spec.gatewayOf i.Name route <;> simp [addrLoop]
  | cons a rest ih =>
    have ih1 := fun r => ih r (fun x hx => hwf x (List.mem_cons_of_mem _ hx))
    cases a with
    | other t =>
      simp only [addrLoop, ih1, List.filterMap_cons, Spec.nonLoopbackIPv4?]
    | ipNet v =>
      have hacc := accepts_iff v (hwf _ (List.mem_cons_self _ _))
      by_cases hok : Spec.isIPv4 v = true ∧ Spec.isLoopback v = false
      · have hcode := hacc.mpr hok
        cases err with
        | none =>
          have hg : Spec.gatewayOf i.Name route = some gw := by simp [Spec.gatewayOf, hgw]
          simp [addrLoop, hcode, hgw, ih1, hg, Spec.nonLoopbackIPv4?, hok]
        | some e =>
          have hg : Spec.gatewayOf i.Name route = none := by simp [Spec.gatewayOf, hgw]
          simp [addrLoop, hcode, hgw, ih1, hg]
      · have hcode : ¬ (IPNet.stringColons v < 2 ∧ IsLoopback v.IP = false) :=
          fun hc => hok (hacc.mp hc)
        simp only [addrLoop, hcode, if_false, ih1, List.filterMap_cons, Spec.nonLoopbackIPv4?, hok]

theorem ifaceLoop_eq (addrs : Interface → Except Error (List Addr))
    (route : Except Error (List String)) (hr : Spec.RouteWellFormed route)
    (ifaces : List Interface) (res : List IfNetPack)
    (hwf : ∀ i ∈ ifaces, ∀ as, addrs i = .ok as → ∀ a ∈ as, Spec.WellFormed a) :
    ifaceLoop addrs route ifaces res = .ret (res ++ Spec.expectedNets ifaces addrs route) := by
  induction ifaces generalizing res with
  | nil => simp [ifaceLoop, Spec.expectedNets]
  | cons i rest ih =>
    have ih1 := fun r => ih r (fun x hx => hwf x (List.mem_cons_of_mem _ hx))
    cases ha : addrs i with
    | error e =>
      simp only [ifaceLoop, ha, ih1]
      simp [Spec.expectedNets, Spec.tuplesOf, ha]
    | ok as =>
      have hl := addrLoop_eq i route hr as res (hwf i (List.mem_cons_self _ _) as ha)
      simp only [ifaceLoop, ha, hl, ih1]
      cases hg : Spec.gatewayOf i.Name route <;>
        simp [Spec.expectedNets, Spec.tuplesOf, ha, hg]

theorem derefInterface_network (sem : LoopVar) (ifaces : List Interface) (res : List IfNetPack) :
    (derefInterface sem ifaces res).map (fun p => (p.Network, p.Gateway))
      = res.map (fun p => (p.Network, p.Gateway)) := by
  cases sem with
  | perIteration => rfl
  | shared =>
    cases hl : ifaces.getLast? with
    | none => simp [derefInterface, hl]
    | some last => simp [derefInterface, hl, Function.comp_def]

theorem expectedNets_mem (ifaces : List Interface)
    (addrs : Interface → Except Error (List Addr)) (route : Except Error (List String))
    (p : IfNetPack) (hp : p ∈ Spec.expectedNets ifaces addrs route) :
    Spec.isIPv4 p.Network = true ∧ Spec.isLoopback p.Network = false
      ∧ Spec.gatewayOf p.Interface.Name route = some p.Gateway := by
  simp only [Spec.expectedNets, List.mem_flatMap] at hp
  obtain ⟨i, _, hp⟩ := hp
  unfold Spec.tuplesOf at hp
  split at hp
  · rename_i as gw ha hg
    simp only [List.mem_map, List.mem_filterMap] at hp
    obtain ⟨v, ⟨a, _, hv⟩, rfl⟩ := hp
    cases a with
    | other t => simp [Spec.nonLoopbackIPv4?] at hv
    | ipNet w =>
      simp only [Spec.nonLoopbackIPv4?] at hv
      split_ifs at hv with hc
      simp only [Option.some.injEq] at hv
      subst hv
      exact ⟨hc.1, hc.2, hg⟩
  · simp at hp

theorem decoded_eq_claimed (ifName : String) (lines : List String)
    (hhex : ∀ l ∈ lines, (strings.Split l '\t')[0]? = some ifName →
      ∃ g, Spec.hexValue? (((strings.Split l '\t')[2]?).getD "") = some g ∧ g < 2 ^ 32) :
    Spec.decodedGateway ifName lines = Spec.claimedGateway ifName lines := by
  induction lines with
  | nil => rfl
  | cons l rest ih =>
    have ih1 := ih (fun x hx => hhex x (List.mem_cons_of_mem _ hx))
    simp only [Spec.decodedGateway, Spec.claimedGateway] at ih1 ⊢
    by_cases hname : (strings.Split l '\t')[0]? = some ifName
    · obtain ⟨g, hg, hlt⟩ := hhex l (List.mem_cons_self _ _) hname
      have hval : Spec.gatewayValue l = (g : Int) := by
        rw [gatewayValue_hex l g hg]
        omega
      cases h2 : (strings.Split l '\t')[2]? with
      | none =>
        have hq : Spec.qualifies ifName l = none := by simp [Spec.qualifies, hname, h2]
        have hd : Spec.decides ifName l = false := by
          have h0 : Spec.gatewayValue l = 0 := by
            simp only [Spec.gatewayValue, h2, Option.getD_none]
            rfl
          simp [Spec.decides, h0]
        simp only [List.find?_cons, hd, List.findSome?_cons, hq]
        exact ih1
      | some f2 =>
        rw [h2, Option.getD_some] at hg
        by_cases hz : g = 0
        · have hq : Spec.qualifies ifName l = none := by
            simp [Spec.qualifies, hname, h2, hg, hz]
          have hd : Spec.decides ifName l = false := by
            simp [Spec.decides, hval, hz]
          simp only [List.find?_cons, hd, List.findSome?_cons, hq]
          exact ih1
        · have hlt1 : g < 4294967296 := by omega
          have hq : Spec.qualifies ifName l = some g := by
            simp [Spec.qualifies, hname, h2, hg, hz, hlt1]
          have hd : Spec.decides ifName l = true := by
            simp [Spec.decides, hname, hval, hz]
          have hmod : ((g : Int) % 2 ^ 32).toNat = g := by omega
          simp only [List.find?_cons, hd, List.findSome?_cons, hq, hval, hmod, hz, if_false]
    · have hq : Spec.qualifies ifName l = none := by simp [Spec.qualifies, hname]
      have hd : Spec.decides ifName l = false := by simp [Spec.decides, hname]
      simp only [List.find?_cons, hd, List.findSome?_cons, hq]
      exact ih1

theorem splitChars_ne_nil (sep : Char) (cs : List Char) : strings.splitChars sep cs ≠ [] := by
  cases cs with
  | nil => simp [strings.splitChars]
  | cons c tl =>
    simp only [strings.splitChars]
    split_ifs
    · simp
    · split <;> simp

theorem split_length_pos (l : String) (sep : Char) : 1 ≤ (strings.Split l sep).length := by
  have h := splitChars_ne_nil sep l.data
  simp only [strings.Split, List.length_map]
  cases hs : strings.splitChars sep l.data with
  | nil => exact absurd hs h
  | cons x xs => simp

theorem scanRoute_eq_of_matching (ifName : String) (lines : List String)
    (h3 : ∀ l ∈ lines, (strings.Split l '\t')[0]? = some ifName →
      3 ≤ (strings.Split l '\t').length) :
    scanRoute ifName lines = .ret
      (match lines.find? (Spec.decides ifName) with
       | some l => binary.PutUint32 ((Spec.gatewayValue l % 2 ^ 32).toNat)
       | none => IPv4zero) := by
  induction lines with
  | nil => rfl
  | cons l rest ih =>
    have ih1 := ih (fun x hx => h3 x (List.mem_cons_of_mem _ hx))
    have hpos := split_length_pos l '\t'
    obtain ⟨f0, hf0⟩ : ∃ f0, (strings.Split l '\t')[0]? = some f0 :=
      ⟨_, List.getElem?_eq_getElem (by omega)⟩
    by_cases hname : f0 = ifName
    · have hl := h3 l (List.mem_cons_self _ _) (by rw [hf0, hname])
      obtain ⟨f2, hf2⟩ : ∃ f2, (strings.Split l '\t')[2]? = some f2 :=
        ⟨_, List.getElem?_eq_getElem (by omega)⟩
      simp only [scanRoute, hf0, hf2, List.find?_cons, Spec.decides, Spec.gatewayValue,
        Option.getD_some, Option.some.injEq]
      by_cases hz : (strconv.ParseInt (bytesOf ("0x" ++ f2))).1 = 0
      · simp [hname, hz, ih1, Spec.decides, Spec.gatewayValue]
      · simp [hname, hz, hf2]
    · simp only [scanRoute, hf0, List.find?_cons, Spec.decides, Option.some.injEq]
      simp [hname, ih1, Spec.decides, Spec.gatewayValue]

theorem getDefaultGateway_eq_of_matching (ifName : String) (lines : List String)
    (h3 : ∀ l ∈ lines, (strings.Split l '\t')[0]? = some ifName →
      3 ≤ (strings.Split l '\t').length) :
    GetDefaultGateway ifName (.ok lines) = .ret (Spec.decodedGateway ifName lines) := by
  simp only [GetDefaultGateway, scanRoute_eq_of_matching ifName lines h3, Spec.decodedGateway]
  cases hfind : lines.find? (Spec.decides ifName) with
  | none => simp [Equal, IPv4zero]
  | some l =>
    have hlt : (Spec.gatewayValue l % 2 ^ 32).toNat < 2 ^ 32 := by omega
    simp only [equal_put_zero _ hlt, littleEndian4_eq]
    generalize (Spec.gatewayValue l % 2 ^ 32).toNat = g
    by_cases hz : g = 0 <;> simp [hz]

end arcnet

/-! ## Theorems: `collector.go` -/

namespace collector

open models

theorem send_closed {α : Type} (ch : Chan α) (v : α) (h : ch.closed = true) :
    ch.send v = .closed := by
  simp [Chan.send, h]

theorem send_full {α : Type} (ch : Chan α) (v : α) (h : ch.closed = false)
    (hfull : ch.cap ≤ ch.queue.length) : ch.send v = .full := by
  simp [Chan.send, h, hfull]

theorem send_room {α : Type} (ch : Chan α) (v : α) (h : ch.closed = false)
    (hroom : ch.queue.length < ch.cap) :
    ch.send v = .sent { ch with queue := ch.queue ++ [v] } := by
  have : ¬ ch.cap ≤ ch.queue.length := by omega
  simp [Chan.send, h, this]

theorem aggregateStep_offline (c : Collector) (m : arp.MACEntry) (rest : List arp.MACEntry)
    (hq : c.intChan.queue = m :: rest) (hoff : m.Online = false) :
    aggregateStep c = (.running, { c with intChan := { c.intChan with queue := rest } }) := by
  simp [aggregateStep, Chan.recv, hq, hoff]

theorem aggregateStep_online (c : Collector) (m : arp.MACEntry) (rest : List arp.MACEntry)
    (hq : c.intChan.queue = m :: rest) (hon : m.Online = true)
    (hopen : c.ArpChannel.closed = false) (hroom : c.ArpChannel.queue.length < c.ArpChannel.cap) :
    aggregateStep c = (.running,
      { c with
        intChan := { c.intChan with queue := rest }
        ArpChannel := { c.ArpChannel with
          queue := c.ArpChannel.queue ++ [{ Entry := m, Static := false }] } }) := by
  simp [aggregateStep, Chan.recv, hq, hon, send_room _ _ hopen hroom]

theorem aggregateStep_full (c : Collector) (m : arp.MACEntry) (rest : List arp.MACEntry)
    (hq : c.intChan.queue = m :: rest) (hon : m.Online = true)
    (hopen : c.ArpChannel.closed = false) (hfull : c.ArpChannel.cap ≤ c.ArpChannel.queue.length) :
    aggregateStep c = (.sending { Entry := m, Static := false },
      { c with intChan := { c.intChan with queue := rest } }) := by
  simp [aggregateStep, Chan.recv, hq, hon, send_full _ _ hopen hfull]

theorem aggregate_queue (ms : List arp.MACEntry) (c : Collector)
    (hq : c.intChan.queue = ms) (hopen : c.ArpChannel.closed = false)
    (hroom : c.ArpChannel.queue.length + (ms.filter (fun m => m.Online)).length
      ≤ c.ArpChannel.cap) :
    aggregate ms.length c =
      { iterations := ms.length
        status := .running
        state := { c with
          intChan := { c.intChan with queue := [] }
          ArpChannel := { c.ArpChannel with
            queue := c.ArpChannel.queue ++
              (ms.filter (fun m => m.Online)).map (fun m => { Entry := m, Static := false }) } } } := by
  induction ms generalizing c with
  | nil =>
    obtain ⟨cfg, hs, ⟨ik, iq, ic⟩, ⟨ok, oq, oc⟩⟩ := c
    simp only at hq
    subst hq
    simp [aggregate]
  | cons m rest ih =>
    by_cases hon : m.Online = true
    · simp only [List.filter_cons, hon, if_true, List.length_cons] at hroom
      have hih := ih
        { c with
          intChan := { c.intChan with queue := rest }
          ArpChannel := { c.ArpChannel with
            queue := c.ArpChannel.queue ++ [{ Entry := m, Static := false }] } }
        rfl hopen (by simp only [List.length_append, List.length_singleton]; omega)
      simp only [List.length_cons, aggregate,
        aggregateStep_online c m rest hq hon hopen (by omega), hih]
      simp [List.filter_cons, hon]
    · have hoff : m.Online = false := by simpa using hon
      simp only [List.filter_cons, hoff, Bool.false_eq_true, if_false] at hroom
      have hih := ih { c with intChan := { c.intChan with queue := rest } } rfl hopen hroom
      simp only [List.length_cons, aggregate, aggregateStep_offline c m rest hq hoff, hih]
      simp [List.filter_cons, hoff]

theorem aggregateStep_writes (c : Collector) :
    ∃ ws, (aggregateStep c).2.ArpChannel.queue = c.ArpChannel.queue ++ ws
      ∧ ∀ msg ∈ ws, msg.Entry.Online = true ∧ msg.Static = false := by
  unfold aggregateStep
  cases hr : c.intChan.recv arp.MACEntry.zero with
  | none => exact ⟨[], by simp, by simp⟩
  | some p =>
    obtain ⟨m, intake⟩ := p
    by_cases hon : m.Online = true
    · simp only [hon, if_true]
      cases hs : c.ArpChannel.send { Entry := m, Static := false } with
      | closed => exact ⟨[], by simp, by simp⟩
      | full => exact ⟨[], by simp, by simp⟩
      | sent out =>
        refine ⟨[{ Entry := m, Static := false }], ?_, ?_⟩
        · simp only [Chan.send] at hs
          split_ifs at hs
          simp only [SendResult.sent.injEq] at hs
          subst hs
          rfl
        · intro msg hmsg
          simp only [List.mem_singleton] at hmsg
          subst hmsg
          exact ⟨hon, rfl⟩
    · simp only [hon, Bool.false_eq_true, if_false]
      exact ⟨[], by simp, by simp⟩

theorem aggregate_writes (n : Nat) (c : Collector) :
    ∃ ws, (aggregate n c).state.ArpChannel.queue = c.ArpChannel.queue ++ ws
      ∧ ∀ msg ∈ ws, msg.Entry.Online = true ∧ msg.Static = false := by
  induction n generalizing c with
  | zero => exact ⟨[], by simp [aggregate], by simp⟩
  | succ n ih =>
    obtain ⟨ws1, h1, hw1⟩ := aggregateStep_writes c
    simp only [aggregate]
    cases hstep : aggregateStep c with
    | mk st c1 =>
      rw [hstep] at h1
      simp only at h1
      cases st with
      | running =>
        obtain ⟨ws2, h2, hw2⟩ := ih c1
        refine ⟨ws1 ++ ws2, ?_, ?_⟩
        · simp only [h2, h1, List.append_assoc]
        · intro msg hmsg
          rcases List.mem_append.mp hmsg with hm | hm
          · exact hw1 msg hm
          · exact hw2 msg hm
      | waiting => exact ⟨ws1, h1, hw1⟩
      | sending m => exact ⟨ws1, h1, hw1⟩
      | faulted p => exact ⟨ws1, h1, hw1⟩

theorem aggregate_closed_drained (c : Collector) (hq : c.intChan.queue = [])
    (hcl : c.intChan.closed = true) (n : Nat) :
    aggregate n c = { iterations := n, status := .running, state := c } := by
  obtain ⟨cfg, hs, ⟨ik, iq, ic⟩, oc⟩ := c
  simp only at hq hcl
  subst hq hcl
  induction n with
  | zero => rfl
  | succ n ih =>
    simp [aggregate, aggregateStep, Chan.recv, arp.MACEntry.zero, ih]

theorem seedMessagesFrom_cons (env : Env) (k : Nat) (h : NetHandler) (rest : List NetHandler) :
    Spec.seedMessagesFrom env k (h :: rest)
      = Spec.networkSeed env k h ++ Spec.seedMessagesFrom env (k + 1) rest := by
  simp [Spec.seedMessagesFrom, List.enumFrom]

theorem lookupsOkFrom_cons (env : Env) (k : Nat) (h : NetHandler) (rest : List NetHandler) :
    Spec.lookupsOkFrom env k (h :: rest)
      = (if (env.whoIs k (Spec.started h).handler h.ifNet.Gateway).isOk then 1 else 0)
        + Spec.lookupsOkFrom env (k + 1) rest := by
  simp only [Spec.lookupsOkFrom, List.enumFrom, List.countP_cons]
  omega

theorem networkSeed_length (env : Env) (k : Nat) (h : NetHandler) :
    (Spec.networkSeed env k h).length
      = 1 + (if (env.whoIs k (Spec.started h).handler h.ifNet.Gateway).isOk then 1 else 0) := by
  cases hw : env.whoIs k (Spec.started h).handler h.ifNet.Gateway <;>
    simp [Spec.networkSeed, hw, Except.isOk, Except.toBool]

theorem seedLoop_fits (env : Env) (hs : List NetHandler) (k : Nat) (done : List NetHandler)
    (out : Chan CacheMessage) (hopen : out.closed = false)
    (hfit : out.queue.length + (Spec.seedMessagesFrom env k hs).length ≤ out.cap) :
    seedLoop env hs k done out = .returned (done ++ hs.map Spec.started,
      { out with queue := out.queue ++ Spec.seedMessagesFrom env k hs }) := by
  induction hs generalizing k done out with
  | nil =>
    obtain ⟨cp, q, cl⟩ := out
    simp [seedLoop, Spec.seedMessagesFrom]
  | cons h rest ih =>
    have e : ({ h with handler := (h.handler.AddNotificationChannel).ListenAndServe } :
        NetHandler) = Spec.started h := rfl
    have eh : (h.handler.AddNotificationChannel).ListenAndServe = (Spec.started h).handler := rfl
    obtain ⟨cp, q, cl⟩ := out
    simp only at hopen hfit
    subst hopen
    rw [seedMessagesFrom_cons, List.length_append] at hfit
    simp only [seedLoop, e, getGatewayCacheMessage]
    have hself : q.length < cp := by
      have := networkSeed_length env k h
      omega
    rw [send_room _ _ rfl hself, eh]
    simp only
    cases hw : env.whoIs k (Spec.started h).handler h.ifNet.Gateway with
    | error err =>
      have hl : (Spec.networkSeed env k h).length = 1 := by simp [Spec.networkSeed, hw]
      have hih := ih (k + 1) (done ++ [Spec.started h])
        { cap := cp, queue := q ++ [getSelfCacheMessage (env.now k) (Spec.started h)],
          closed := false } rfl
        (by simp only [List.length_append, List.length_singleton]; omega)
      simp only
      rw [hih]
      simp [seedMessagesFrom_cons, Spec.networkSeed, hw]
    | ok mac =>
      have hl : (Spec.networkSeed env k h).length = 2 := by simp [Spec.networkSeed, hw]
      have hroom2 : (q ++ [getSelfCacheMessage (env.now k) (Spec.started h)]).length < cp := by
        simp only [List.length_append, List.length_singleton]
        omega
      have hih := ih (k + 1) (done ++ [Spec.started h])
        { cap := cp,
          queue := q ++ [getSelfCacheMessage (env.now k) (Spec.started h)]
            ++ [{ Entry := mac, Static := true }],
          closed := false } rfl
        (by simp only [List.length_append, List.length_singleton]; omega)
      simp only
      rw [send_room _ _ rfl hroom2]
      simp only
      rw [hih]
      simp [seedMessagesFrom_cons, Spec.networkSeed, hw]

theorem seedLoop_suspends (env : Env) (hs : List NetHandler) (k : Nat) (done : List NetHandler)
    (out : Chan CacheMessage) (r : Nat) (hopen : out.closed = false)
    (hr : out.cap - out.queue.length = r)
    (hover : r < (Spec.seedMessagesFrom env k hs).length) :
    ∃ hs1 pending, seedLoop env hs k done out = .suspended (hs1,
        { out with queue := out.queue ++ (Spec.seedMessagesFrom env k hs).take r }) pending
      ∧ (Spec.seedMessagesFrom env k hs)[r]? = some pending := by
  induction hs generalizing k done out r with
  | nil => simp [Spec.seedMessagesFrom] at hover
  | cons h rest ih =>
    have e : ({ h with handler := (h.handler.AddNotificationChannel).ListenAndServe } :
        NetHandler) = Spec.started h := rfl
    have eh : (h.handler.AddNotificationChannel).ListenAndServe = (Spec.started h).handler := rfl
    obtain ⟨cp, q, cl⟩ := out
    simp only at hopen hr
    subst hopen
    rw [seedMessagesFrom_cons] at hover ⊢
    simp only [seedLoop, e, getGatewayCacheMessage]
    rw [eh]
    cases r with
    | zero =>
      have hfull : cp ≤ q.length := by omega
      rw [send_full _ _ rfl hfull]
      exact ⟨done ++ Spec.started h :: rest, getSelfCacheMessage (env.now k) (Spec.started h),
        by simp, by simp [Spec.networkSeed]⟩
    | succ r1 =>
      have hroom : q.length < cp := by omega
      rw [send_room _ _ rfl hroom]
      simp only
      cases hw : env.whoIs k (Spec.started h).handler h.ifNet.Gateway with
      | error err =>
        have hns : Spec.networkSeed env k h
            = [getSelfCacheMessage (env.now k) (Spec.started h)] := by
          simp [Spec.networkSeed, hw]
        rw [hns] at hover ⊢
        simp only [List.length_append, List.length_singleton] at hover
        obtain ⟨hs1, pending, h1, h2⟩ := ih (k + 1)
          (done ++ [Spec.started h])
          { cap := cp, queue := q ++ [getSelfCacheMessage (env.now k) (Spec.started h)],
            closed := false } r1 rfl
          (by simp only [List.length_append, List.length_singleton]; omega) (by omega)
        refine ⟨hs1, pending, ?_, ?_⟩
        · simp only
          rw [h1]
          simp
        · simpa using h2
      | ok mac =>
        have hns : Spec.networkSeed env k h
            = [getSelfCacheMessage (env.now k) (Spec.started h), { Entry := mac, Static := true }] := by
          simp [Spec.networkSeed, hw]
        rw [hns] at hover ⊢
        simp only [List.length_append, List.length_cons, List.length_nil] at hover
        simp only
        cases r1 with
        | zero =>
          have hfull : cp ≤ (q ++ [getSelfCacheMessage (env.now k) (Spec.started h)]).length := by
            simp only [List.length_append, List.length_singleton]
            omega
          rw [send_full _ _ rfl hfull]
          exact ⟨done ++ Spec.started h :: rest, { Entry := mac, Static := true },
            by simp, by simp⟩
        | succ r2 =>
          have hroom2 : (q ++ [getSelfCacheMessage (env.now k) (Spec.started h)]).length < cp := by
            simp only [List.length_append, List.length_singleton]
            omega
          rw [send_room _ _ rfl hroom2]
          simp only
          obtain ⟨hs1, pending, h1, h2⟩ := ih (k + 1)
            (done ++ [Spec.started h])
            { cap := cp,
              queue := q ++ [getSelfCacheMessage (env.now k) (Spec.started h)]
                ++ [{ Entry := mac, Static := true }],
              closed := false } r2 rfl
            (by simp only [List.length_append, List.length_singleton]; omega) (by omega)
          refine ⟨hs1, pending, ?_, ?_⟩
          · rw [h1]
            simp
          · simpa using h2

theorem seedMessages_static (env : Env) (hs : List NetHandler) (k : Nat) :
    ∀ m ∈ Spec.seedMessagesFrom env k hs, m.Static = true := by
  induction hs generalizing k with
  | nil => simp [Spec.seedMessagesFrom]
  | cons h rest ih =>
    intro m hm
    rw [seedMessagesFrom_cons, List.mem_append] at hm
    rcases hm with hm | hm
    · simp only [Spec.networkSeed, List.mem_cons] at hm
      rcases hm with rfl | hm
      · rfl
      · cases hw : env.whoIs k (Spec.started h).handler h.ifNet.Gateway with
        | error e => simp [hw] at hm
        | ok mac =>
          simp only [hw, List.mem_singleton] at hm
          subst hm
          rfl
    · exact ih (k + 1) m hm

theorem seedMessages_length (env : Env) (hs : List NetHandler) (k : Nat) :
    (Spec.seedMessagesFrom env k hs).length = hs.length + Spec.lookupsOkFrom env k hs := by
  induction hs generalizing k with
  | nil => simp [Spec.seedMessagesFrom, Spec.lookupsOkFrom]
  | cons h rest ih =>
    rw [seedMessagesFrom_cons, lookupsOkFrom_cons, List.length_append, ih (k + 1)]
    cases hw : env.whoIs k (Spec.started h).handler h.ifNet.Gateway with
    | error e => simp [Spec.networkSeed, hw, Except.isOk, Except.toBool]; omega
    | ok mac => simp [Spec.networkSeed, hw, Except.isOk, Except.toBool]; omega

theorem lookupsOk_le (env : Env) (hs : List NetHandler) (k : Nat) :
    Spec.lookupsOkFrom env k hs ≤ hs.length := by
  have h := List.countP_le_length
    (fun kh : Nat × NetHandler => (env.whoIs kh.1 (Spec.started kh.2).handler kh.2.ifNet.Gateway).isOk)
    (l := hs.enumFrom k)
  simpa [Spec.lookupsOkFrom] using h

theorem getHandler_ok (arpNew : arp.Config → Except Error arp.Handler)
    (np : IfNetPack) (cfg : config.ArpConfig) (h : NetHandler)
    (hok : getHandler arpNew np cfg = .ok h) :
    arpNew (handlerConfig np cfg) = .ok h.handler ∧ h.ifNet = np := by
  simp only [getHandler] at hok
  cases hw : arpNew (handlerConfig np cfg) with
  | error e => simp [hw] at hok
  | ok w =>
    simp only [hw, Except.ok.injEq] at hok
    subst hok
    exact ⟨rfl, rfl⟩

theorem getHandler_ok_of_new (arpNew : arp.Config → Except Error arp.Handler)
    (np : IfNetPack) (cfg : config.ArpConfig)
    (hok : ∃ w, arpNew (handlerConfig np cfg) = .ok w) :
    ∃ h, getHandler arpNew np cfg = .ok h := by
  obtain ⟨w, hw⟩ := hok
  exact ⟨{ handler := w, ifNet := np }, by simp [getHandler, hw]⟩

theorem getHandler_ifNet (arpNew : arp.Config → Except Error arp.Handler)
    (np : IfNetPack) (cfg : config.ArpConfig) (h : NetHandler)
    (hok : getHandler arpNew np cfg = .ok h) : h.ifNet = np := by
  simp only [getHandler] at hok
  split at hok
  · simp only [Except.ok.injEq] at hok
    rw [← hok]
  · simp at hok

theorem getAllHandlersLoop_ok (arpNew : arp.Config → Except Error arp.Handler)
    (cfg : config.ArpConfig) (nps : List IfNetPack) (res : List NetHandler)
    (hall : ∀ np ∈ nps, ∃ h, getHandler arpNew np cfg = .ok h) :
    ∃ hs, getAllHandlersLoop arpNew cfg nps res = (some (res ++ hs), none)
      ∧ List.Forall₂ (fun np h => getHandler arpNew np cfg = .ok h) nps hs := by
  induction nps generalizing res with
  | nil => exact ⟨[], by simp [getAllHandlersLoop], List.Forall₂.nil⟩
  | cons np rest ih =>
    obtain ⟨h, hh⟩ := hall np (List.mem_cons_self _ _)
    obtain ⟨hs, e, f⟩ := ih (res ++ [h]) (fun x hx => hall x (List.mem_cons_of_mem _ hx))
    refine ⟨h :: hs, ?_, List.Forall₂.cons hh f⟩
    simp only [getAllHandlersLoop, hh, e, List.append_assoc, List.singleton_append]

theorem getAllHandlersLoop_error (arpNew : arp.Config → Except Error arp.Handler)
    (cfg : config.ArpConfig) (pre : List IfNetPack) (np : IfNetPack) (post : List IfNetPack)
    (err : Error) (res : List NetHandler)
    (hpre : ∀ x ∈ pre, ∃ h, getHandler arpNew x cfg = .ok h)
    (hnp : getHandler arpNew np cfg = .error err) :
    getAllHandlersLoop arpNew cfg (pre ++ np :: post) res = (none, some err) := by
  induction pre generalizing res with
  | nil => simp [getAllHandlersLoop, hnp]
  | cons x rest ih =>
    obtain ⟨h, hh⟩ := hpre x (List.mem_cons_self _ _)
    simp only [List.cons_append, getAllHandlersLoop, hh]
    exact ih _ (fun y hy => hpre y (List.mem_cons_of_mem _ hy))

theorem forall₂_ifNet (arpNew : arp.Config → Except Error arp.Handler)
    (cfg : config.ArpConfig) (nps : List IfNetPack) (hs : List NetHandler)
    (f : List.Forall₂ (fun np h => getHandler arpNew np cfg = .ok h) nps hs) :
    hs.map (fun h => h.ifNet) = nps := by
  induction f with
  | nil => rfl
  | cons hh _ ih =>
    simp only [List.map_cons, ih, getHandler_ifNet _ _ _ _ hh]

theorem closeHandlers_eq (c : Collector) (pre rest : List NetHandler) :
    closeHandlers c pre rest
      = (List.range rest.length).map (fun k =>
          (CloseEvent.watcherClose (pre.length + k),
           { c with nethandlers := pre ++ (rest.take (k + 1)).map Spec.stopped
              ++ rest.drop (k + 1) })) := by
  induction rest generalizing pre with
  | nil => rfl
  | cons h tl ih =>
    have hst : ({ h with handler := h.handler.Close } : NetHandler) = Spec.stopped h := rfl
    simp only [closeHandlers, hst, ih, List.length_cons, List.range_succ_eq_map, List.map_cons,
      List.map_map, Nat.add_zero, List.take_succ_cons, List.take_zero, List.map_nil,
      List.drop_succ_cons, List.drop_zero]
    refine congrArg₂ _ (by simp) ?_
    apply List.map_congr_left
    intro k _
    simp only [Function.comp, List.length_append, List.length_singleton, List.append_assoc,
      List.singleton_append, Prod.mk.injEq, CloseEvent.watcherClose.injEq]
    exact ⟨by omega, trivial⟩

theorem stateAfter_closeHandlers (c0 c : Collector) (pre rest : List NetHandler) :
    stateAfter c0 (closeHandlers c pre rest)
      = match rest with
        | [] => c0
        | _ :: _ => { c with nethandlers := pre ++ rest.map Spec.stopped } := by
  induction rest generalizing pre c0 with
  | nil => rfl
  | cons h tl ih =>
    have hst : ({ h with handler := h.handler.Close } : NetHandler) = Spec.stopped h := rfl
    simp only [closeHandlers, stateAfter, hst, ih]
    cases tl with
    | nil => simp
    | cons x xs => simp

theorem closeHandlers_self (c : Collector) :
    closeHandlers c [] c.nethandlers
      = (List.range c.nethandlers.length).map
          (fun k => (CloseEvent.watcherClose k, Spec.afterWatchers c (k + 1))) := by
  rw [closeHandlers_eq]
  simp [Spec.afterWatchers]

theorem stateAfter_self (c : Collector) :
    stateAfter c (closeHandlers c [] c.nethandlers)
      = { c with nethandlers := c.nethandlers.map Spec.stopped } := by
  rw [stateAfter_closeHandlers]
  obtain ⟨cfg, hs, ic, oc⟩ := c
  cases hs with
  | nil => rfl
  | cons x xs => simp

theorem afterWatchers_all (c : Collector) :
    Spec.afterWatchers c c.nethandlers.length
      = { c with nethandlers := c.nethandlers.map Spec.stopped } := by
  simp [Spec.afterWatchers]

theorem close_open (c : Collector) (hi : c.intChan.closed = false)
    (ho : c.ArpChannel.closed = false) :
    Collector.Close c =
      { steps := Spec.shutdownSteps c
        state := { c with
          nethandlers := c.nethandlers.map (fun h => { h with handler := h.handler.Close })
          intChan := { c.intChan with closed := true }
          ArpChannel := { c.ArpChannel with closed := true } }
        fault := none } := by
  have hmap : c.nethandlers.map (fun h => ({ h with handler := h.handler.Close } : NetHandler))
      = c.nethandlers.map Spec.stopped := rfl
  simp only [Collector.Close, stateAfter_self]
  simp only [closeHandlers_self, Chan.close, hi, ho,
    Bool.false_eq_true, if_false, Spec.shutdownSteps, afterWatchers_all, hmap]

theorem close_closed (c : Collector) (hi : c.intChan.closed = true) :
    Collector.Close c =
      { steps := (List.range c.nethandlers.length).map
          (fun k => (CloseEvent.watcherClose k, Spec.afterWatchers c (k + 1)))
        state := { c with
          nethandlers := c.nethandlers.map (fun h => { h with handler := h.handler.Close }) }
        fault := some .closeOfClosedChannel } := by
  have hmap : c.nethandlers.map (fun h => ({ h with handler := h.handler.Close } : NetHandler))
      = c.nethandlers.map Spec.stopped := rfl
  simp only [Collector.Close, stateAfter_self]
  simp only [closeHandlers_self, Chan.close, hi, if_true, hmap]

theorem close_output_closed (c : Collector) (hi : c.intChan.closed = false)
    (ho : c.ArpChannel.closed = true) :
    Collector.Close c =
      { steps := (List.range c.nethandlers.length).map
            (fun k => (CloseEvent.watcherClose k, Spec.afterWatchers c (k + 1)))
          ++ [(CloseEvent.closeIntake,
                { Spec.afterWatchers c c.nethandlers.length with
                  intChan := { c.intChan with closed := true } })]
        state := { c with
          nethandlers := c.nethandlers.map (fun h => { h with handler := h.handler.Close })
          intChan := { c.intChan with closed := true } }
        fault := some .closeOfClosedChannel } := by
  have hmap : c.nethandlers.map (fun h => ({ h with handler := h.handler.Close } : NetHandler))
      = c.nethandlers.map Spec.stopped := rfl
  simp only [Collector.Close, stateAfter_self]
  simp only [closeHandlers_self, Chan.close, hi, ho,
    Bool.false_eq_true, if_false, if_true, afterWatchers_all, hmap]

theorem close_steps (c : Collector) :
    (Collector.Close c).steps
      = (Spec.shutdownSteps c).take
          (c.nethandlers.length
            + (if c.intChan.closed then 0 else if c.ArpChannel.closed then 1 else 2)) := by
  have hlen : ((List.range c.nethandlers.length).map
      (fun k => (CloseEvent.watcherClose k, Spec.afterWatchers c (k + 1)))).length
        = c.nethandlers.length := by simp
  have htake : ∀ j, (Spec.shutdownSteps c).take (c.nethandlers.length + j)
      = (List.range c.nethandlers.length).map
          (fun k => (CloseEvent.watcherClose k, Spec.afterWatchers c (k + 1)))
        ++ [(CloseEvent.closeIntake,
              { Spec.afterWatchers c c.nethandlers.length with
                intChan := { c.intChan with closed := true } }),
            (CloseEvent.closeOutput,
              { Spec.afterWatchers c c.nethandlers.length with
                intChan := { c.intChan with closed := true }
                ArpChannel := { c.ArpChannel with closed := true } })].take j := by
    intro j
    unfold Spec.shutdownSteps
    rw [List.take_append_eq_append_take, hlen, List.take_of_length_le (by rw [hlen]; omega),
      Nat.add_sub_cancel_left]
  cases hi : c.intChan.closed with
  | true =>
    rw [close_closed c hi]
    show _ = (Spec.shutdownSteps c).take (c.nethandlers.length + 0)
    rw [htake 0]
    simp
  | false =>
    cases ho : c.ArpChannel.closed with
    | true =>
      rw [close_output_closed c hi ho]
      show _ = (Spec.shutdownSteps c).take (c.nethandlers.length + 1)
      rw [htake 1]
      simp
    | false =>
      rw [close_open c hi ho]
      show _ = (Spec.shutdownSteps c).take (c.nethandlers.length + 2)
      rw [htake 2]
      simp [Spec.shutdownSteps]

theorem close_events (c : Collector) :
    (Collector.Close c).events
      = (List.range c.nethandlers.length).map CloseEvent.watcherClose
        ++ [CloseEvent.closeIntake, CloseEvent.closeOutput].take
            (if c.intChan.closed then 0 else if c.ArpChannel.closed then 1 else 2) := by
  cases hi : c.intChan.closed with
  | true =>
    rw [close_closed c hi]
    simp [CloseRun.events, Function.comp_def]
  | false =>
    cases ho : c.ArpChannel.closed with
    | true =>
      rw [close_output_closed c hi ho]
      simp [CloseRun.events, Function.comp_def]
    | false =>
      rw [close_open c hi ho]
      simp [CloseRun.events, Spec.shutdownSteps, Function.comp_def]

theorem close_handlers_stopped (c : Collector) :
    (Collector.Close c).state.nethandlers = c.nethandlers.map Spec.stopped := by
  cases hi : c.intChan.closed with
  | true => rw [close_closed c hi]; rfl
  | false =>
    cases ho : c.ArpChannel.closed with
    | true => rw [close_output_closed c hi ho]; rfl
    | false => rw [close_open c hi ho]; rfl

theorem close_intake_closed (c : Collector) :
    (Collector.Close c).state.intChan.closed = true := by
  cases hi : c.intChan.closed with
  | true => rw [close_closed c hi]; exact hi
  | false =>
    cases ho : c.ArpChannel.closed with
    | true => rw [close_output_closed c hi ho]
    | false => rw [close_open c hi ho]

end collector

/-! ## The claims -/

open net models collector arcnet

/-- C1, the claim as stated fails: an online entry is read from the intake
and no message is written. After `Close` the loop is still running; with
entries left in the intake it reads the online one and faults in the send
on the closed output, which stays empty. With 256 messages queued in the
output and nobody receiving, the loop reads the online entry and is
suspended in the send. -/
theorem C1_online_entry_not_written :
    Sample.online.Online = true
    ∧ (Collector.Close Sample.busy).state.intChan.queue
        = [Sample.online, Sample.offline, Sample.online]
    ∧ (aggregateStep (Collector.Close Sample.busy).state).1
        = .faulted GoPanic.sendOnClosedChannel
    ∧ (aggregateStep (Collector.Close Sample.busy).state).2.intChan.queue
        = [Sample.offline, Sample.online]
    ∧ (aggregateStep (Collector.Close Sample.busy).state).2.ArpChannel.queue = []
    ∧ Sample.backlog.intChan.queue = [Sample.online]
    ∧ aggregateStep Sample.backlog
        = (.sending { Entry := Sample.online, Static := false },
           { Sample.backlog with intChan := { Sample.backlog.intChan with queue := [] } }) := by
  refine ⟨rfl, by decide, by decide, by decide, by decide, rfl, ?_⟩
  refine aggregateStep_full Sample.backlog Sample.online [] rfl rfl rfl ?_
  show 256 ≤ (List.replicate 256 ({ Entry := Sample.online, Static := false } : CacheMessage)).length
  rw [List.length_replicate]

/-- C1 as amended: while the output channel is open, an iteration of the
aggregation loop that reads an entry `m` from the intake writes nothing when
`m` is offline; when `m` is online and the output has room it writes exactly
one message, with `Entry = m` and `Static = false`; when `m` is online and
the output holds `cap` messages it is suspended in the send of that message.
For every finite sequence of intake entries whose online entries fit into
the room of the output, the loop writes exactly the online entries, in
order, each wrapped with `Static = false`. Whatever the number of
iterations, every message the loop writes has an online entry and
`Static = false`. -/
theorem C1_aggregator_forwards_online (c : Collector) (hopen : c.ArpChannel.closed = false) :
    (∀ m rest, c.intChan.queue = m :: rest → m.Online = false →
      aggregateStep c = (.running, { c with intChan := { c.intChan with queue := rest } }))
    ∧ (∀ m rest, c.intChan.queue = m :: rest → m.Online = true →
        c.ArpChannel.queue.length < c.ArpChannel.cap →
        aggregateStep c = (.running,
          { c with
            intChan := { c.intChan with queue := rest }
            ArpChannel := { c.ArpChannel with
              queue := c.ArpChannel.queue ++ [{ Entry := m, Static := false }] } }))
    ∧ (∀ m rest, c.intChan.queue = m :: rest → m.Online = true →
        c.ArpChannel.cap ≤ c.ArpChannel.queue.length →
        aggregateStep c = (.sending { Entry := m, Static := false },
          { c with intChan := { c.intChan with queue := rest } }))
    ∧ (c.ArpChannel.queue.length + (c.intChan.queue.filter (fun m => m.Online)).length
          ≤ c.ArpChannel.cap →
        aggregate c.intChan.queue.length c =
          { iterations := c.intChan.queue.length
            status := .running
            state := { c with
              intChan := { c.intChan with queue := [] }
              ArpChannel := { c.ArpChannel with
                queue := c.ArpChannel.queue ++
                  (c.intChan.queue.filter (fun m => m.Online)).map
                    (fun m => { Entry := m, Static := false }) } } })
    ∧ (∀ n, ∀ msg ∈ (aggregate n c).state.ArpChannel.queue.drop c.ArpChannel.queue.length,
        msg.Entry.Online = true ∧ msg.Static = false) := by
  refine ⟨fun m rest hq hoff => aggregateStep_offline c m rest hq hoff,
    fun m rest hq hon hroom => aggregateStep_online c m rest hq hon hopen hroom,
    fun m rest hq hon hfull => aggregateStep_full c m rest hq hon hopen hfull,
    fun hroom => aggregate_queue _ c rfl hopen hroom, ?_⟩
  intro n msg hmsg
  obtain ⟨ws, hws, hall⟩ := aggregate_writes n c
  rw [hws, List.drop_left] at hmsg
  exact hall msg hmsg

/-- Witness of C1 as amended: with an online, an offline and an online entry
in the intake and an empty open output, three iterations write the two
online entries. -/
theorem C1_aggregator_forwards_online_witness :
    Sample.busy.ArpChannel.closed = false
    ∧ Sample.busy.ArpChannel.queue.length
        + (Sample.busy.intChan.queue.filter (fun m => m.Online)).length
          ≤ Sample.busy.ArpChannel.cap
    ∧ (aggregate 3 Sample.busy).state.ArpChannel.queue
        = [{ Entry := Sample.online, Static := false }, { Entry := Sample.online, Static := false }] :=
  ⟨rfl, by decide, by
    have h := (C1_aggregator_forwards_online Sample.busy rfl).2.2.2.1 (by decide)
    rw [show (3 : Nat) = Sample.busy.intChan.queue.length from rfl, h]
    decide⟩

/-- C2, the claim as stated fails: for the 257 handler sets of a collector
built by `New`, with every gateway lookup failing, the claim counts 257
static messages; with nobody receiving, `Start` writes 256 of them and is
suspended in the send of the next one. -/
theorem C2_start_suspended_on_full_output :
    Sample.crowded.nethandlers.length = 257
    ∧ (Spec.seedMessagesFrom Sample.quiet 0 Sample.crowded.nethandlers).length = 257
    ∧ ∃ c1 pending, Collector.Start Sample.quiet Sample.crowded = .suspended c1 pending
        ∧ c1.ArpChannel.queue.length = 256 := by
  have hn : Sample.crowded.nethandlers.length = 257 := by simp [Sample.crowded]
  have hok : Spec.lookupsOkFrom Sample.quiet 0 Sample.crowded.nethandlers = 0 := by
    simp [Spec.lookupsOkFrom, Sample.quiet, Except.isOk, Except.toBool]
  have hlen : (Spec.seedMessagesFrom Sample.quiet 0 Sample.crowded.nethandlers).length = 257 := by
    rw [seedMessages_length, hn, hok]
  refine ⟨hn, hlen, ?_⟩
  obtain ⟨hs1, pending, h1, _⟩ := seedLoop_suspends Sample.quiet Sample.crowded.nethandlers 0 []
    Sample.crowded.ArpChannel 256 rfl rfl (by rw [hlen]; omega)
  refine ⟨{ Sample.crowded with
      nethandlers := hs1
      ArpChannel := { Sample.crowded.ArpChannel with
        queue := Sample.crowded.ArpChannel.queue ++
          (Spec.seedMessagesFrom Sample.quiet 0 Sample.crowded.nethandlers).take 256 } },
    pending, by simp only [Collector.Start, h1], ?_⟩
  simp only [List.length_append, List.length_take, hlen]
  rfl

/-- C2 as amended: on a collector whose output channel is open, the seeding
loop of `Start` writes, for the networks in enumeration order, the self
message of the network followed by its gateway message exactly when the
lookup of that network succeeded. When these messages fit into the room of
the output, `Start` writes all of them and returns, whatever the lookups
answer; when they do not and nobody receives, `Start` writes as many as fit
and is suspended in the send of the next one. Every such message has
`Static = true`; their number is the number of networks plus the number of
successful lookups, hence between `N` and `2N`. -/
theorem C2_seeding_messages (env : Env) (c : Collector) (hopen : c.ArpChannel.closed = false) :
    (c.ArpChannel.queue.length + (Spec.seedMessagesFrom env 0 c.nethandlers).length
          ≤ c.ArpChannel.cap →
        Collector.Start env c = .returned
          { c with
            nethandlers := c.nethandlers.map Spec.started
            ArpChannel := { c.ArpChannel with
              queue := c.ArpChannel.queue ++ Spec.seedMessagesFrom env 0 c.nethandlers } })
    ∧ (c.ArpChannel.cap - c.ArpChannel.queue.length
          < (Spec.seedMessagesFrom env 0 c.nethandlers).length →
        ∃ hs1 pending, Collector.Start env c = .suspended
            { c with
              nethandlers := hs1
              ArpChannel := { c.ArpChannel with
                queue := c.ArpChannel.queue ++
                  (Spec.seedMessagesFrom env 0 c.nethandlers).take
                    (c.ArpChannel.cap - c.ArpChannel.queue.length) } } pending
          ∧ (Spec.seedMessagesFrom env 0 c.nethandlers)[
                c.ArpChannel.cap - c.ArpChannel.queue.length]? = some pending)
    ∧ (∀ m ∈ Spec.seedMessagesFrom env 0 c.nethandlers, m.Static = true)
    ∧ (Spec.seedMessagesFrom env 0 c.nethandlers).length
        = c.nethandlers.length + Spec.lookupsOkFrom env 0 c.nethandlers
    ∧ c.nethandlers.length ≤ (Spec.seedMessagesFrom env 0 c.nethandlers).length
    ∧ (Spec.seedMessagesFrom env 0 c.nethandlers).length ≤ 2 * c.nethandlers.length := by
  have hlen := seedMessages_length env c.nethandlers 0
  have hle := lookupsOk_le env c.nethandlers 0
  refine ⟨?_, ?_, seedMessages_static env c.nethandlers 0, hlen, by omega, by omega⟩
  · intro hfit
    simp only [Collector.Start, seedLoop_fits env c.nethandlers 0 [] c.ArpChannel hopen hfit,
      List.nil_append]
  · intro hover
    obtain ⟨hs1, pending, h1, h2⟩ := seedLoop_suspends env c.nethandlers 0 [] c.ArpChannel
      (c.ArpChannel.cap - c.ArpChannel.queue.length) hopen rfl hover
    exact ⟨hs1, pending, by simp only [Collector.Start, h1], h2⟩

/-- Witness of C2 as amended: one network whose gateway does not answer
yields exactly the self message, and `Start` returns; when the gateway
answers there are two messages. -/
theorem C2_seeding_messages_witness :
    Sample.fresh.ArpChannel.closed = false
    ∧ Sample.fresh.ArpChannel.queue.length
        + (Spec.seedMessagesFrom Sample.quiet 0 Sample.fresh.nethandlers).length
          ≤ Sample.fresh.ArpChannel.cap
    ∧ Collector.Start Sample.quiet Sample.fresh = .returned
        { Sample.fresh with
          nethandlers := [Spec.started Sample.h0]
          ArpChannel :=
            { cap := 256
              queue := [getSelfCacheMessage 1700000000 (Spec.started Sample.h0)]
              closed := false } }
    ∧ (Spec.seedMessagesFrom Sample.answering 0 Sample.fresh.nethandlers).length = 2 :=
  ⟨rfl, by decide,
    ((C2_seeding_messages Sample.quiet Sample.fresh rfl).1 (by decide)).trans (by decide),
    (C2_seeding_messages Sample.answering Sample.fresh rfl).2.2.2.1.trans (by decide)⟩

/-- C3: construction is all or nothing. If the watcher constructor succeeds
for every tuple, `getAllHandlers` returns no error and one handler set per
tuple, in the same order, each holding the watcher built for its tuple and
the tuple itself, and `New` returns the collector with these handler sets.
If the constructor fails for some tuple, `getAllHandlers` returns nil and
the error of the first such tuple, and `New` returns no collector and that
error. `New` returns no collector and the enumeration error when the
enumeration fails. -/
theorem C3_construction_all_or_nothing (arpNew : arp.Config → Except Error arp.Handler)
    (cfg : config.ArpConfig) (nps : List IfNetPack) :
    ((∀ np ∈ nps, ∃ w, arpNew (handlerConfig np cfg) = .ok w) →
      ∃ hs, getAllHandlers arpNew nps cfg = (some hs, none)
        ∧ hs.length = nps.length
        ∧ hs.map (fun h => h.ifNet) = nps
        ∧ List.Forall₂ (fun np h => arpNew (handlerConfig np cfg) = .ok h.handler ∧ h.ifNet = np)
            nps hs
        ∧ New arpNew (nps, none) cfg
            = (some { cfg := cfg, nethandlers := hs, intChan := Chan.make 256,
                      ArpChannel := Chan.make 256 }, none))
    ∧ (∀ pre np post err, nps = pre ++ np :: post →
        (∀ x ∈ pre, ∃ w, arpNew (handlerConfig x cfg) = .ok w) →
        arpNew (handlerConfig np cfg) = .error err →
        getAllHandlers arpNew nps cfg = (none, some err)
          ∧ New arpNew (nps, none) cfg = (none, some err))
    ∧ (∀ err, New arpNew (nps, some err) cfg = (none, some err)) := by
  refine ⟨?_, ?_, ?_⟩
  · intro hall
    obtain ⟨hs, e, f⟩ := getAllHandlersLoop_ok arpNew cfg nps []
      (fun np hnp => (getHandler_ok_of_new arpNew np cfg) (hall np hnp))
    simp only [List.nil_append] at e
    have hmap := forall₂_ifNet arpNew cfg nps hs f
    refine ⟨hs, e, ?_, hmap, ?_, ?_⟩
    · rw [← hmap, List.length_map]
    · exact f.imp (fun np h hh => getHandler_ok arpNew np cfg h hh)
    · simp [New, getAllHandlers, e]
  · intro pre np post err hnps hpre hnp
    subst hnps
    have e := getAllHandlersLoop_error arpNew cfg pre np post err []
      (fun x hx => (getHandler_ok_of_new arpNew x cfg) (hpre x hx))
      (by simp [getHandler, hnp])
    exact ⟨e, by simp [New, getAllHandlers, e]⟩
  · intro err
    rfl

/-- Witness of C3: one network builds a collector holding its tuple; two
networks of which the second cannot get a watcher build none. -/
theorem C3_construction_all_or_nothing_witness :
    (∃ hs, getAllHandlers Sample.arpNew [Sample.np0] Sample.cfg = (some hs, none)
        ∧ hs.length = [Sample.np0].length
        ∧ hs.map (fun h => h.ifNet) = [Sample.np0]
        ∧ List.Forall₂
            (fun np h => Sample.arpNew (handlerConfig np Sample.cfg) = .ok h.handler ∧ h.ifNet = np)
            [Sample.np0] hs
        ∧ New Sample.arpNew ([Sample.np0], none) Sample.cfg
            = (some { cfg := Sample.cfg, nethandlers := hs, intChan := Chan.make 256,
                      ArpChannel := Chan.make 256 }, none))
    ∧ (getAllHandlers Sample.arpNew [Sample.np0, Sample.np1] Sample.cfg
          = (none, some "arp: cannot open eth1")
        ∧ New Sample.arpNew ([Sample.np0, Sample.np1], none) Sample.cfg
          = (none, some "arp: cannot open eth1")) :=
  ⟨(C3_construction_all_or_nothing Sample.arpNew Sample.cfg [Sample.np0]).1
      (by intro np hnp
          simp only [List.mem_singleton] at hnp
          subst hnp
          exact ⟨Sample.handler0, rfl⟩),
   (C3_construction_all_or_nothing Sample.arpNew Sample.cfg [Sample.np0, Sample.np1]).2.1
      [Sample.np0] Sample.np1 [] "arp: cannot open eth1" rfl
      (by intro np hnp
          simp only [List.mem_singleton] at hnp
          subst hnp
          exact ⟨Sample.handler0, rfl⟩)
      rfl⟩

/-- C4: the self message of a handler set is static, its MAC is the hardware
address of the interface of the handler set, the first slot of its address
array holds the IPv4 form of the address of the network with the clock
reading, the three other slots are empty, and when the network has an
IPv4 address that slot is the one IP observation of the entry. -/
theorem C4_self_message (now : Time) (h : NetHandler) :
    (getSelfCacheMessage now h).Static = true
    ∧ (getSelfCacheMessage now h).Entry.MAC = h.ifNet.Interface.HardwareAddr
    ∧ (getSelfCacheMessage now h).Entry.IPArray.toList
        = [{ IP := To4 h.ifNet.Network.IP, LastUpdated := now }, arp.IPEntry.zero,
           arp.IPEntry.zero, arp.IPEntry.zero]
    ∧ (To4 h.ifNet.Network.IP ≠ [] →
        Spec.observations (getSelfCacheMessage now h).Entry
          = [{ IP := To4 h.ifNet.Network.IP, LastUpdated := now }]) := by
  refine ⟨rfl, rfl, rfl, ?_⟩
  intro h4
  simp [Spec.observations, getSelfCacheMessage, arp.IPArray.toList, arp.IPEntry.zero,
    List.filter_cons, h4]

/-- Witness of C4: the self message of the `eth0` handler set carries
`192.168.1.5` as its one observation. -/
theorem C4_self_message_witness :
    To4 Sample.h0.ifNet.Network.IP ≠ []
    ∧ Spec.observations (getSelfCacheMessage 1700000000 Sample.h0).Entry
        = [{ IP := [192, 168, 1, 5], LastUpdated := 1700000000 }] :=
  ⟨by decide, ((C4_self_message 1700000000 Sample.h0).2.2.2 (by decide)).trans (by decide)⟩

/-- C5, the claim as stated fails: on the collector `New` builds for one
network the first `Close` completes and the second faults with a close of a
closed channel. -/
theorem C5_second_close_faults :
    (Collector.Close Sample.fresh).fault = none
    ∧ (Collector.Close (Collector.Close Sample.fresh).state).fault
        = some GoPanic.closeOfClosedChannel := by
  decide

/-- C5 as amended: `Close` on a collector whose two channels are open
completes without a fault and leaves every watcher closed and both channels
closed; a second `Close` does not complete: it closes the watchers again,
which changes nothing, and faults on the close of the closed intake, the
state staying as the first call left it. -/
theorem C5_close_once (c : Collector) (hi : c.intChan.closed = false)
    (ho : c.ArpChannel.closed = false) :
    (Collector.Close c).fault = none
    ∧ (Collector.Close c).state =
        { c with
          nethandlers := c.nethandlers.map (fun h => { h with handler := h.handler.Close })
          intChan := { c.intChan with closed := true }
          ArpChannel := { c.ArpChannel with closed := true } }
    ∧ (Collector.Close (Collector.Close c).state).fault = some GoPanic.closeOfClosedChannel
    ∧ (Collector.Close (Collector.Close c).state).state = (Collector.Close c).state := by
  have h1 := close_open c hi ho
  have h2 := close_closed (Collector.Close c).state (by rw [h1])
  refine ⟨by rw [h1], by rw [h1], by rw [h2], ?_⟩
  rw [h2, h1]
  simp [arp.Handler.Close, Function.comp_def]

/-- Witness of C5 as amended, on the collector built for one network. -/
theorem C5_close_once_witness :
    Sample.fresh.intChan.closed = false ∧ Sample.fresh.ArpChannel.closed = false
    ∧ (Collector.Close Sample.fresh).fault = none
    ∧ (Collector.Close (Collector.Close Sample.fresh).state).state
        = (Collector.Close Sample.fresh).state :=
  ⟨rfl, rfl, (C5_close_once Sample.fresh rfl rfl).1, (C5_close_once Sample.fresh rfl rfl).2.2.2⟩

/-- C6: the calls `Close` completes are, in order, a stop of every watcher
of the handler list, each once and in list order, then the close of the
intake, then the close of the output. Each call is listed with the
collector right after it: after the stop of watcher `k` the first `k + 1`
watchers are stopped and both channels are as before; after the close of
the intake every watcher is stopped and the intake is closed; after the
close of the output the output is closed too. The run is this sequence up
to the first close of a channel that is already closed, so in every state
no channel is closed before every watcher has been stopped and the output
is not closed before the intake; every handler of the list is left stopped;
and on a collector whose channels are open the whole sequence is made,
`Close` completes, and it leaves every watcher stopped, the intake closed
and the output closed. -/
theorem C6_shutdown_order (c : Collector) :
    (Collector.Close c).steps
      = (Spec.shutdownSteps c).take
          (c.nethandlers.length
            + (if c.intChan.closed then 0 else if c.ArpChannel.closed then 1 else 2))
    ∧ (Collector.Close c).events
        = (List.range c.nethandlers.length).map CloseEvent.watcherClose
          ++ [CloseEvent.closeIntake, CloseEvent.closeOutput].take
              (if c.intChan.closed then 0 else if c.ArpChannel.closed then 1 else 2)
    ∧ (Collector.Close c).state.nethandlers = c.nethandlers.map Spec.stopped
    ∧ (Collector.Close c).state.intChan.closed = true
    ∧ (c.intChan.closed = false → c.ArpChannel.closed = false →
        (Collector.Close c).steps = Spec.shutdownSteps c
        ∧ (Collector.Close c).events
            = (List.range c.nethandlers.length).map CloseEvent.watcherClose
              ++ [CloseEvent.closeIntake, CloseEvent.closeOutput]
        ∧ (Collector.Close c).fault = none
        ∧ (Collector.Close c).state =
            { c with
              nethandlers := c.nethandlers.map Spec.stopped
              intChan := { c.intChan with closed := true }
              ArpChannel := { c.ArpChannel with closed := true } }
        ∧ ∀ h ∈ (Collector.Close c).state.nethandlers, h.handler.closed = true) := by
  refine ⟨close_steps c, close_events c, close_handlers_stopped c, close_intake_closed c, ?_⟩
  intro hi ho
  have h1 := close_open c hi ho
  refine ⟨by rw [h1], ?_, by rw [h1], by rw [h1]; rfl, ?_⟩
  · rw [close_events c, hi, ho]
    rfl
  · intro h hh
    rw [close_handlers_stopped c] at hh
    simp only [List.mem_map] at hh
    obtain ⟨x, _, rfl⟩ := hh
    rfl

/-- Witness of C6: on the collector built for one network the calls are the
stop of watcher 0, the close of the intake, the close of the output, and
they leave the watcher stopped and both channels closed. -/
theorem C6_shutdown_order_witness :
    Sample.fresh.intChan.closed = false ∧ Sample.fresh.ArpChannel.closed = false
    ∧ (Collector.Close Sample.fresh).events
        = [CloseEvent.watcherClose 0, CloseEvent.closeIntake, CloseEvent.closeOutput]
    ∧ (Collector.Close Sample.fresh).state =
        { Sample.fresh with
          nethandlers := [Spec.stopped Sample.h0]
          intChan := { cap := 256, queue := [], closed := true }
          ArpChannel := { cap := 256, queue := [], closed := true } } :=
  ⟨rfl, rfl, ((C6_shutdown_order Sample.fresh).2.2.2.2 rfl rfl).2.1.trans (by decide),
    ((C6_shutdown_order Sample.fresh).2.2.2.2 rfl rfl).2.2.2.1.trans (by decide)⟩

/-- C7, the code at the failing input: once `Close` has closed the intake of
a collector built by `New`, the aggregation loop does not leave its `for`:
every receive yields the zero entry at once, which is offline and discarded,
so after any number `n` of iterations the loop is still running, has made
`n` iterations and has written nothing. -/
theorem C7_loop_spins_after_close (cfg : config.ArpConfig) (hs : List NetHandler) (n : Nat) :
    aggregate n
        (Collector.Close
          { cfg := cfg, nethandlers := hs, intChan := Chan.make 256, ArpChannel := Chan.make 256 }).state
      = { iterations := n
          status := .running
          state :=
            (Collector.Close
              { cfg := cfg, nethandlers := hs, intChan := Chan.make 256,
                ArpChannel := Chan.make 256 }).state } := by
  apply aggregate_closed_drained
  · rw [close_open _ rfl rfl]
    rfl
  · rw [close_open _ rfl rfl]

/-- C8, the claim as stated fails: `eth0` has the non-loopback IPv4 address
`192.168.1.5/24`, for which the claim expects a tuple, and the route table
has no default route for `eth0`; the result has no tuple. -/
theorem C8_no_gateway_no_tuple :
    GetAllLocalNets .perIteration (.ok [Sample.eth0]) Sample.addrs (.ok Sample.localOnlyLines)
      = .ret ([], none)
    ∧ Spec.claimedNetworks [Sample.eth0] Sample.addrs = [(Sample.eth0, Sample.lan)] := by
  decide

/-- C8 as amended: for interfaces whose addresses are IPv4 or IPv6 networks
and a route table whose lines have at least three fields, `GetAllLocalNets`
returns, in enumeration order, one tuple for every non-loopback IPv4 address
of every interface whose addresses can be read and whose default gateway
`GetDefaultGateway` determines, each with that gateway, and no other tuple:
none for a loopback or IPv6 address and none for an interface without a
determined gateway. The networks and gateways are these for either meaning
of the loop variable; the interface of a tuple is the one of its address
when every iteration has its own variable. A failed enumeration returns the
empty list and the error. -/
theorem C8_local_nets (sem : LoopVar) (ifaces : List Interface)
    (addrs : Interface → Except Error (List Addr)) (route : Except Error (List String))
    (hr : Spec.RouteWellFormed route)
    (hwf : ∀ i ∈ ifaces, ∀ as, addrs i = .ok as → ∀ a ∈ as, Spec.WellFormed a) :
    GetAllLocalNets sem (.ok ifaces) addrs route
      = .ret (derefInterface sem ifaces (Spec.expectedNets ifaces addrs route), none)
    ∧ (derefInterface sem ifaces (Spec.expectedNets ifaces addrs route)).map
          (fun p => (p.Network, p.Gateway))
        = (Spec.expectedNets ifaces addrs route).map (fun p => (p.Network, p.Gateway))
    ∧ GetAllLocalNets .perIteration (.ok ifaces) addrs route
        = .ret (Spec.expectedNets ifaces addrs route, none)
    ∧ (∀ p ∈ Spec.expectedNets ifaces addrs route,
        Spec.isIPv4 p.Network = true ∧ Spec.isLoopback p.Network = false
          ∧ Spec.gatewayOf p.Interface.Name route = some p.Gateway)
    ∧ (∀ e, GetAllLocalNets sem (.error e) addrs route = .ret ([], some e)) := by
  have hloop := ifaceLoop_eq addrs route hr ifaces [] hwf
  simp only [List.nil_append] at hloop
  refine ⟨?_, derefInterface_network sem ifaces _, ?_, expectedNets_mem ifaces addrs route, ?_⟩
  · simp [GetAllLocalNets, hloop]
  · simp [GetAllLocalNets, hloop, derefInterface]
  · intro e
    rfl

/-- Witness of C8 as amended: a host with `lo` (`127.0.0.1/8`) and `eth0`
(`192.168.1.5/24` and `fe80::1/64`) whose default route on `eth0` goes
through `192.168.1.1` yields the one tuple of `eth0`. -/
theorem C8_local_nets_witness :
    Spec.RouteWellFormed (.ok Sample.routeLines)
    ∧ (∀ i ∈ [Sample.lo, Sample.eth0], ∀ as, Sample.addrs i = .ok as →
        ∀ a ∈ as, Spec.WellFormed a)
    ∧ GetAllLocalNets .perIteration (.ok [Sample.lo, Sample.eth0]) Sample.addrs
        (.ok Sample.routeLines) = .ret ([Sample.np0], none) :=
  have hr : Spec.RouteWellFormed (.ok Sample.routeLines) := by
    show ∀ l ∈ Sample.routeLines, 3 ≤ (strings.Split l '\t').length
    decide
  have hwf : ∀ i ∈ [Sample.lo, Sample.eth0], ∀ as, Sample.addrs i = .ok as →
      ∀ a ∈ as, Spec.WellFormed a := by
    intro i hi as ha a hmem
    simp only [List.mem_cons, List.mem_singleton, List.not_mem_nil, or_false] at hi
    rcases hi with rfl | rfl
    · have hq : as = [.ipNet Sample.loopNet] := by
        have : Sample.addrs Sample.lo = .ok [.ipNet Sample.loopNet] := rfl
        rw [this] at ha
        exact (Except.ok.inj ha).symm
      subst hq
      simp only [List.mem_singleton] at hmem
      subst hmem
      exact Or.inl (by decide)
    · have hq : as = [.ipNet Sample.lan, .ipNet Sample.linkLocal] := by
        have : Sample.addrs Sample.eth0 = .ok [.ipNet Sample.lan, .ipNet Sample.linkLocal] := rfl
        rw [this] at ha
        exact (Except.ok.inj ha).symm
      subst hq
      simp only [List.mem_cons, List.mem_singleton, List.not_mem_nil, or_false] at hmem
      rcases hmem with rfl | rfl
      · exact Or.inl (by decide)
      · exact Or.inr (by decide)
  ⟨hr, hwf,
    (C8_local_nets .perIteration [Sample.lo, Sample.eth0] Sample.addrs (.ok Sample.routeLines)
      hr hwf).2.2.1.trans (by decide)⟩

/-- C9, the claim as stated fails: every line has three fields, the third
field of the `eth0` line is the hexadecimal number `0x1000000FF`, which is
not below `2^32`, so no line qualifies and the claim gives `0.0.0.0` with an
error; the code returns `255.0.0.0` and no error. -/
theorem C9_wide_gateway_field :
    (∀ l ∈ Sample.wideLines, 3 ≤ (strings.Split l '\t').length)
    ∧ GetDefaultGateway "eth0" (.ok Sample.wideLines) = .ret ([255, 0, 0, 0], none)
    ∧ Spec.claimedGateway "eth0" Sample.wideLines = (IPv4zero, some (noGatewayError "eth0")) := by
  decide

/-- C9 as amended: over lines with at least three tab-separated fields, the
result is decided by the first line whose first field is the interface name
and whose third field reads as a non-zero value with
`strconv.ParseInt("0x" + field, 0, 64)`: the address is the 4 little-endian
bytes of the low 32 bits of that value, with a nil error unless these bytes
are zero; without such a line it is `0.0.0.0` with an error. The error is
non-nil exactly when the address equals `0.0.0.0`. A third field that is a
hexadecimal number `g` reads as `g`, capped at `2^63 - 1`; so a deciding line
with `g < 2^32` gives the 4 bytes of `g` and no error, and on a table whose
lines for the interface all carry hexadecimal numbers below `2^32` the result
is the one the claim describes. -/
theorem C9_gateway_decoding (ifName : String) (lines : List String)
    (h3 : ∀ l ∈ lines, 3 ≤ (strings.Split l '\t').length) :
    GetDefaultGateway ifName (.ok lines) = .ret (Spec.decodedGateway ifName lines)
    ∧ ((Spec.decodedGateway ifName lines).2 ≠ none
        ↔ Equal (Spec.decodedGateway ifName lines).1 IPv4zero = true)
    ∧ (∀ l g, Spec.hexValue? (((strings.Split l '\t')[2]?).getD "") = some g →
        Spec.gatewayValue l = min (g : Int) (2 ^ 63 - 1))
    ∧ (∀ l g, lines.find? (Spec.decides ifName) = some l →
        Spec.hexValue? (((strings.Split l '\t')[2]?).getD "") = some g → g < 2 ^ 32 →
        GetDefaultGateway ifName (.ok lines) = .ret (Spec.littleEndian4 g, none))
    ∧ ((∀ l ∈ lines, (strings.Split l '\t')[0]? = some ifName →
          ∃ g, Spec.hexValue? (((strings.Split l '\t')[2]?).getD "") = some g ∧ g < 2 ^ 32) →
        GetDefaultGateway ifName (.ok lines) = .ret (Spec.claimedGateway ifName lines)) := by
  have hmain := getDefaultGateway_eq ifName lines h3
  refine ⟨hmain, decodedGateway_error_iff ifName lines, gatewayValue_hex, ?_, ?_⟩
  · intro l g hfind hg hlt
    have hval : Spec.gatewayValue l = (g : Int) := by
      rw [gatewayValue_hex l g hg]
      omega
    have hdec := List.find?_some hfind
    have hnz : g ≠ 0 := by
      intro hz
      simp [Spec.decides, hval, hz] at hdec
    have hmod : ((g : Int) % 2 ^ 32).toNat = g := by omega
    rw [hmain]
    simp only [Spec.decodedGateway, hfind, hval, hmod, hnz, if_false]
  · intro hhex
    rw [hmain, decoded_eq_claimed ifName lines hhex]

/-- Witness of C9 as amended: the gateway field `0101A8C0` of the default
route of `eth0` gives `192.168.1.1` and no error. -/
theorem C9_gateway_decoding_witness :
    (∀ l ∈ Sample.routeLines, 3 ≤ (strings.Split l '\t').length)
    ∧ GetDefaultGateway "eth0" (.ok Sample.routeLines) = .ret ([192, 168, 1, 1], none) :=
  ⟨by decide, (C9_gateway_decoding "eth0" Sample.routeLines (by decide)).1.trans (by decide)⟩

/-- C10, the claim as stated fails: a line whose first field is the
interface name and that has fewer than three fields makes the index
expression `fields[2]` fault, so `GetDefaultGateway` returns no pair; an
empty line does so for the empty interface name. -/
theorem C10_short_line_faults :
    GetDefaultGateway "eth0" (.ok ["eth0\t00000000"]) = .fault (.indexOutOfRange 2 2)
    ∧ GetDefaultGateway "eth0" (.ok ["eth0"]) = .fault (.indexOutOfRange 2 1)
    ∧ GetDefaultGateway "" (.ok [""]) = .fault (.indexOutOfRange 2 1) := by
  decide

/-- C10 as amended: `GetDefaultGateway` returns an (address, error) pair for
every interface name and every list of lines in which each line whose first
field is the interface name has at least three tab-separated fields, empty
lines and short lines of other interfaces included; the pair is the one
decided by the first deciding line. The access `fields[0]` is in range on
every line whatever its text, and an unreadable route table gives
`0.0.0.0` with the error of the open. -/
theorem C10_total_on_route_lines (ifName : String) (lines : List String)
    (h3 : ∀ l ∈ lines, (strings.Split l '\t')[0]? = some ifName →
      3 ≤ (strings.Split l '\t').length) :
    GetDefaultGateway ifName (.ok lines) = .ret (Spec.decodedGateway ifName lines)
    ∧ (∀ l : String, 1 ≤ (strings.Split l '\t').length)
    ∧ (∀ e, GetDefaultGateway ifName (.error e) = .ret (IPv4zero, some e)) :=
  ⟨getDefaultGateway_eq_of_matching ifName lines h3, fun l => split_length_pos l '\t',
    fun _ => rfl⟩

/-- Witness of C10 as amended: a table with an empty line and a one-field
line of another interface before the `eth0` line returns `192.168.1.1`. -/
theorem C10_total_on_route_lines_witness :
    (∀ l ∈ ["", "lo", "eth0\t00000000\t0101A8C0"],
        (strings.Split l '\t')[0]? = some "eth0" → 3 ≤ (strings.Split l '\t').length)
    ∧ GetDefaultGateway "eth0" (.ok ["", "lo", "eth0\t00000000\t0101A8C0"])
        = .ret ([192, 168, 1, 1], none) :=
  ⟨by decide,
    (C10_total_on_route_lines "eth0" ["", "lo", "eth0\t00000000\t0101A8C0"] (by decide)).1.trans
      (by decide)⟩

end ArpRedisCollector
